import Mathlib

/-!
# Verification of the PCBA Test GUI measurement-visualization engine

Shallow embedding of the measurement comparison & visualization preparation
engine (`src/gui/graph_generation/graph_utils.py`,
`src/gui/graph_generation/graph_generator.py`,
`src/gui/graph_generation/graph_config.py`, `src/gui/pages/graph_page.py`)
together with proofs about its behavior.

Numeric values are modelled as rationals (`ℚ`); Python `None` / NaN entries
are modelled as `Option` values.  Fallible Python code (functions that can
raise) is modelled with `Except String`.
-/

namespace PCBA

/-! ## Outlier detection (`graph_utils.detect_outliers`)

`detect_outliers(values, n_std=3.0)` works on a float array in which missing
values are NaN; we model the input as `List (Option ℚ)` with `none` for NaN.
NumPy's `np.mean`/`np.std` over the valid mask are the arithmetic mean and the
population standard deviation; `std` is the square root of `varianceValid`
below.  The source compares `np.abs((arr - mean) / std) > n_std`; since both
sides are nonnegative and `std = √varianceValid`, this holds exactly when
`(x - mean)^2 > nStd^2 * varianceValid`, which is the (rational, sqrt-free)
form used here.  `std == 0` holds exactly when `varianceValid = 0`.
NaN positions produce `z = NaN`, for which `NaN > n_std` is `False`, and are
additionally forced to `False` by `outliers[~valid_mask] = False`. -/

/-- The non-NaN entries of the input, in order (`arr[valid_mask]`). -/
def validValues (values : List (Option ℚ)) : List ℚ :=
  values.filterMap id

/-- `valid_mask.sum()`: the number of non-NaN entries. -/
def validCount (values : List (Option ℚ)) : ℕ :=
  (validValues values).length

/-- `np.mean(arr[valid_mask])`. -/
def meanValid (values : List (Option ℚ)) : ℚ :=
  (validValues values).sum / (validCount values : ℚ)

/-- `np.std(arr[valid_mask]) ** 2`: the population variance of the valid
entries (NumPy's default `ddof=0`). -/
def varianceValid (values : List (Option ℚ)) : ℚ :=
  ((validValues values).map (fun x => (x - meanValid values) ^ 2)).sum
    / (validCount values : ℚ)

/-- Embedding of `graph_utils.detect_outliers`. -/
def detect_outliers (values : List (Option ℚ)) (nStd : ℚ := 3) : List Bool :=
  if values.length < 3 then
    List.replicate values.length false
  else if validCount values < 3 then
    List.replicate values.length false
  else if varianceValid values = 0 then
    List.replicate values.length false
  else
    values.map (fun v =>
      match v with
      | none => false
      | some x =>
          decide ((x - meanValid values) ^ 2 > nStd ^ 2 * varianceValid values))

lemma validCount_le_length (values : List (Option ℚ)) :
    validCount values ≤ values.length := by
  simpa [validCount, validValues] using List.length_filterMap_le id values

/-- C1: outlier detection flags position `i` exactly when at least 3 valid
values exist, the variance over valid values is nonzero, the value at `i` is
present, and its squared deviation from the valid mean strictly exceeds
`9` times the valid variance (i.e. `|z| > 3.0`, so a value at exactly 3.0
standard deviations is not flagged); with fewer than 3 valid values, or zero
variance, every position is unflagged. -/
theorem detect_outliers_zscore (values : List (Option ℚ)) (i : ℕ)
    (h : i < values.length) :
    ((detect_outliers values 3)[i]? = some true ↔
      3 ≤ validCount values ∧ varianceValid values ≠ 0 ∧
        ∃ x, values[i]? = some (some x) ∧
          (x - meanValid values) ^ 2 > 9 * varianceValid values)
    ∧ (validCount values < 3 →
        detect_outliers values 3 = List.replicate values.length false)
    ∧ (varianceValid values = 0 →
        detect_outliers values 3 = List.replicate values.length false) := by
  have hv : values[i]? = some values[i] := List.getElem?_eq_getElem h
  refine ⟨?_, ?_, ?_⟩
  · unfold detect_outliers
    by_cases hlen : values.length < 3
    · rw [if_pos hlen]
      have hvc : validCount values < 3 :=
        lt_of_le_of_lt (validCount_le_length values) hlen
      rw [List.getElem?_replicate, if_pos h]
      constructor
      · intro hfalse; cases hfalse
      · rintro ⟨h3, -⟩; omega
    · rw [if_neg hlen]
      by_cases hvc : validCount values < 3
      · rw [if_pos hvc, List.getElem?_replicate, if_pos h]
        constructor
        · intro hfalse; cases hfalse
        · rintro ⟨h3, -⟩; omega
      · rw [if_neg hvc]
        by_cases hvar : varianceValid values = 0
        · rw [if_pos hvar, List.getElem?_replicate, if_pos h]
          constructor
          · intro hfalse; cases hfalse
          · rintro ⟨-, hne, -⟩; exact absurd hvar hne
        · rw [if_neg hvar]
          have h3 : 3 ≤ validCount values := by omega
          have hm : i < (values.map (fun v =>
              match v with
              | none => false
              | some x => decide
                  ((x - meanValid values) ^ 2 > (3:ℚ) ^ 2 * varianceValid values))).length := by
            simpa using h
          rw [List.getElem?_eq_getElem hm, List.getElem_map]
          cases hx : values[i] with
          | none =>
              constructor
              · intro hfalse; cases hfalse
              · rintro ⟨-, -, x, hxi, -⟩
                rw [hv, hx] at hxi; cases hxi
          | some x =>
              constructor
              · intro hgt
                simp only [Option.some_inj, decide_eq_true_iff] at hgt
                refine ⟨h3, hvar, x, by rw [hv, hx], by nlinarith [hgt]⟩
              · rintro ⟨-, -, y, hy, hgt⟩
                rw [hv, hx] at hy
                injection hy with hy
                injection hy with hy
                subst hy
                simp only [Option.some_inj, decide_eq_true_iff]
                nlinarith [hgt]
  · intro hvc
    unfold detect_outliers
    by_cases hlen : values.length < 3
    · rw [if_pos hlen]
    · rw [if_neg hlen, if_pos hvc]
  · intro hvar
    unfold detect_outliers
    by_cases hlen : values.length < 3
    · rw [if_pos hlen]
    · rw [if_neg hlen]
      by_cases hvc : validCount values < 3
      · rw [if_pos hvc]
      · rw [if_neg hvc, if_pos hvar]

/-- Ten zeros followed by a 100: the 100 sits strictly beyond 3 standard
deviations of this list. -/
def outlierExample : List (Option ℚ) :=
  [some 0, some 0, some 0, some 0, some 0, some 0, some 0, some 0,
   some 0, some 0, some 100]

/-- Witness for C1 at a concrete input: in `outlierExample` the lone 100 is
flagged. -/
theorem detect_outliers_zscore_witness :
    10 < outlierExample.length
    ∧ (((detect_outliers outlierExample 3)[10]? = some true ↔
        3 ≤ validCount outlierExample ∧ varianceValid outlierExample ≠ 0 ∧
          ∃ x, outlierExample[10]? = some (some x) ∧
            (x - meanValid outlierExample) ^ 2 > 9 * varianceValid outlierExample)
      ∧ (validCount outlierExample < 3 →
          detect_outliers outlierExample 3 =
            List.replicate outlierExample.length false)
      ∧ (varianceValid outlierExample = 0 →
          detect_outliers outlierExample 3 =
            List.replicate outlierExample.length false)) :=
  ⟨by decide, detect_outliers_zscore outlierExample 10 (by decide)⟩

/-- C10: outlier detection is length-preserving and every missing (NaN)
position is reported as not-an-outlier. -/
theorem detect_outliers_shape (values : List (Option ℚ)) (nStd : ℚ) :
    (detect_outliers values nStd).length = values.length
    ∧ ∀ i : ℕ, values[i]? = some none →
        (detect_outliers values nStd)[i]? = some false := by
  constructor
  · unfold detect_outliers
    split
    · simp
    · split
      · simp
      · split
        · simp
        · simp
  · intro i hi
    have h : i < values.length := by
      by_contra hcon
      rw [List.getElem?_eq_none (by omega)] at hi
      cases hi
    unfold detect_outliers
    split
    · simp [List.getElem?_replicate, h]
    · split
      · simp [List.getElem?_replicate, h]
      · split
        · simp [List.getElem?_replicate, h]
        · rw [List.getElem?_map, hi]
          rfl

/-- Witness for C10 at a concrete input containing a missing entry. -/
theorem detect_outliers_shape_witness :
    ([some 1, none, some 2] : List (Option ℚ))[1]? = some none
    ∧ (detect_outliers [some 1, none, some 2] 3)[1]? = some false :=
  ⟨rfl, (detect_outliers_shape [some 1, none, some 2] 3).2 1 rfl⟩

/-! ## Data model

A `Measurement` models one SQLAlchemy measurement record as seen by the
graph-generation engine.  The source reaches several values through dotted
attribute chains (`m.sub_test.test_log...`, `m.pia.serial_number`,
`_get_field_value(m, x_field)`); those chains are runtime reflection over the
ORM, so each resolved value is modelled as one field here, with `none` for a
chain that hits a missing attribute / `None`:

* `measurement`: `m.measurement` (`None` ⇒ `none`);
* `nominal`: `m.nominal`;
* `hasPlot` / `plotNonempty`: truthiness of `m.has_plot` and `m.plot_data`;
* `pia` / `pmt`: `m.pia.serial_number` / `m.pmt.pmt_serial_number`;
* `fixture`: the value `_get_field_value(m, config.x_axis_field)` resolves to
  for this record (the test-fixture name in fixture pairing);
* `xFieldValue`: the number `_get_x_value(m)` resolves to;
* `groupValue`: the value the grouping-field attribute chain resolves to;
* `testId`: `m.sub_test.test_id`. -/
structure Measurement where
  name : String
  measurement : Option ℚ
  nominal : Option ℚ
  hasPlot : Bool
  plotNonempty : Bool
  pia : Option String
  pmt : Option String
  fixture : String
  xFieldValue : ℚ
  groupValue : Option String
  testId : String
deriving DecidableEq, Repr

/-- `GraphType` (`graph_config.py`). -/
inductive GraphType where
  | scatter
  | line
  | histogram
deriving DecidableEq, Repr

/-- `ComparisonMode` (`graph_config.py`). -/
inductive ComparisonMode where
  | none
  | sameMeasurement
  | differentMeasurements
deriving DecidableEq, Repr

/-- Python truthiness of an optional string: `None` and `""` are falsy. -/
def truthy : Option String → Bool
  | Option.none => false
  | Option.some s => !s.isEmpty

/-- `GraphConfig` (`graph_config.py`), restricted to the fields the modelled
code paths read.  Defaults follow the dataclass defaults. -/
structure GraphConfig where
  measurements : List Measurement := []
  graphType : GraphType := GraphType.scatter
  legendPosition : String := "top-right"
  legendBgOpacity : ℤ := 235
  enableGroupingBoxes : Bool := false
  groupByField : Option String := Option.none
  comparisonMode : ComparisonMode := ComparisonMode.none
  xAxisMeasurement : Option String := Option.none
  yAxisMeasurement : Option String := Option.none
  xAxisUseIndices : Bool := true
  pairingDevice : String := "pia"
  pairingStrategy : String := "last"
  autoOverlayPlots : Bool := true
  removeOutliers : Bool := false
deriving DecidableEq, Repr

/-! ## Configuration validation (`GraphConfig.__post_init__`) -/

/-- The comparison-mode block of `GraphConfig.__post_init__`: validates the
axis-measurement fields and auto-fills `y_axis_measurement` in
same-measurement mode. -/
def postInitComparison (c : GraphConfig) : Except String GraphConfig :=
  if c.comparisonMode ≠ ComparisonMode.none then
    if ¬ truthy c.xAxisMeasurement then
      Except.error "Comparison mode requires x_axis_measurement to be specified"
    else if c.comparisonMode = ComparisonMode.sameMeasurement then
      if truthy c.yAxisMeasurement ∧ c.yAxisMeasurement ≠ c.xAxisMeasurement then
        Except.error "SAME_MEASUREMENT mode requires y_axis_measurement to match x_axis_measurement (or be None, it will be set automatically)"
      else
        Except.ok { c with yAxisMeasurement := c.xAxisMeasurement }
    else if c.comparisonMode = ComparisonMode.differentMeasurements then
      if ¬ truthy c.yAxisMeasurement then
        Except.error "DIFFERENT_MEASUREMENTS mode requires both x_axis_measurement and y_axis_measurement to be specified"
      else Except.ok c
    else Except.ok c
  else Except.ok c

/-- The remaining checks of `GraphConfig.__post_init__` (grouping boxes,
pairing device/strategy, legend position and opacity); they never modify the
config. -/
def postInitChecks (c : GraphConfig) : Except String GraphConfig :=
  if c.enableGroupingBoxes ∧ ¬ truthy c.groupByField then
    Except.error "Grouping boxes enabled but no group_by_field specified"
  else if c.pairingDevice ≠ "pia" ∧ c.pairingDevice ≠ "pmt" then
    Except.error "pairing_device must be pia or pmt"
  else if c.pairingStrategy ≠ "first" ∧ c.pairingStrategy ≠ "last" ∧
      c.pairingStrategy ≠ "best" then
    Except.error "pairing_strategy must be first, last or best"
  else if c.legendPosition ≠ "top-left" ∧ c.legendPosition ≠ "top-right" ∧
      c.legendPosition ≠ "bottom-left" ∧ c.legendPosition ≠ "bottom-right" then
    Except.error "legend_position must be one of the four corner values"
  else if ¬ (0 ≤ c.legendBgOpacity ∧ c.legendBgOpacity ≤ 255) then
    Except.error "legend_bg_opacity must be between 0 and 255"
  else Except.ok c

/-- Embedding of `GraphConfig.__post_init__`: the validation run at
construction.  A raised `ValueError` is modelled as `Except.error` carrying
the message; on success the (possibly auto-filled) config is returned. -/
def postInit (c : GraphConfig) : Except String GraphConfig :=
  match postInitComparison c with
  | Except.error e => Except.error e
  | Except.ok c2 => postInitChecks c2

lemma postInitChecks_ok (c c' : GraphConfig)
    (h : postInitChecks c = Except.ok c') : c' = c := by
  unfold postInitChecks at h
  repeat' split at h
  all_goals simp_all

/-- C8: in different-measurements submode a config with no (truthy) y-axis
measurement is rejected; in same-measurement submode a caller-supplied
(truthy) y-axis measurement differing from the x-axis measurement is
rejected, and on success the y-axis measurement is auto-filled to equal the
x-axis measurement. -/
theorem postInit_validation (c : GraphConfig) :
    (c.comparisonMode = ComparisonMode.differentMeasurements →
      truthy c.yAxisMeasurement = false →
        ∃ e, postInit c = Except.error e)
    ∧ (c.comparisonMode = ComparisonMode.sameMeasurement →
      truthy c.yAxisMeasurement = true →
      c.yAxisMeasurement ≠ c.xAxisMeasurement →
        ∃ e, postInit c = Except.error e)
    ∧ (c.comparisonMode = ComparisonMode.sameMeasurement →
      ∀ c', postInit c = Except.ok c' →
        c'.yAxisMeasurement = c.xAxisMeasurement) := by
  refine ⟨?_, ?_, ?_⟩
  · intro hmode hy
    by_cases hx : truthy c.xAxisMeasurement
    · refine ⟨"DIFFERENT_MEASUREMENTS mode requires both x_axis_measurement and y_axis_measurement to be specified", ?_⟩
      simp [postInit, postInitComparison, hmode, hx, hy]
    · refine ⟨"Comparison mode requires x_axis_measurement to be specified", ?_⟩
      simp [postInit, postInitComparison, hmode, hx]
  · intro hmode hy hne
    by_cases hx : truthy c.xAxisMeasurement
    · refine ⟨"SAME_MEASUREMENT mode requires y_axis_measurement to match x_axis_measurement (or be None, it will be set automatically)", ?_⟩
      simp [postInit, postInitComparison, hmode, hx, hy, hne]
    · refine ⟨"Comparison mode requires x_axis_measurement to be specified", ?_⟩
      simp [postInit, postInitComparison, hmode, hx]
  · intro hmode c' hok
    by_cases hx : truthy c.xAxisMeasurement
    · by_cases hmis : truthy c.yAxisMeasurement = true ∧
          c.yAxisMeasurement ≠ c.xAxisMeasurement
      · simp [postInit, postInitComparison, hmode, hx, hmis] at hok
      · have hstep : postInitComparison c =
            Except.ok { c with yAxisMeasurement := c.xAxisMeasurement } := by
          simp [postInitComparison, hmode, hx, hmis]
        rw [postInit, hstep] at hok
        have := postInitChecks_ok _ _ hok
        rw [this]
    · simp [postInit, postInitComparison, hmode, hx] at hok

/-! ## Association-list helpers

Python dicts preserve insertion order; grouping code
(`defaultdict(list)`, `get_grouped_data`) is modelled by association lists
over insertion order. -/

/-- `groups[k].append(v)` on a `defaultdict(list)`: appends to the existing
bucket, or adds a new key at the end (Python dict insertion order). -/
def addToGroup {α : Type} (k : String) (v : α) :
    List (String × List α) → List (String × List α)
  | [] => [(k, [v])]
  | (k₂, vs) :: rest =>
      if k₂ = k then (k₂, vs ++ [v]) :: rest
      else (k₂, vs) :: addToGroup k v rest

/-- `d[k] = v` on a plain dict: overwrite in place, or add a new key at the
end. -/
def upsert {α : Type} (k : String) (v : α) :
    List (String × α) → List (String × α)
  | [] => [(k, v)]
  | (k₂, v₂) :: rest =>
      if k₂ = k then (k₂, v) :: rest
      else (k₂, v₂) :: upsert k v rest

/-- `d[k]` lookup; the modelled call sites only look up present keys, so a
missing key defaults to the empty bucket. -/
def lookupGroup {α : Type} (k : String) (groups : List (String × List α)) :
    List α :=
  match groups.find? (fun g => g.1 = k) with
  | Option.some g => g.2
  | Option.none => []

/-- The earliest element of the list whose key is minimal. -/
def firstMinBy {α β : Type} [LinearOrder β] (key : α → β) :
    List α → Option α
  | [] => Option.none
  | x :: xs =>
    match firstMinBy key xs with
    | Option.none => Option.some x
    | Option.some y =>
        if key y < key x then Option.some y else Option.some x

/-- The earliest element of the list whose key is maximal. -/
def firstMaxBy {α β : Type} [LinearOrder β] (key : α → β) :
    List α → Option α
  | [] => Option.none
  | x :: xs =>
    match firstMaxBy key xs with
    | Option.none => Option.some x
    | Option.some y =>
        if key x < key y then Option.some y else Option.some x

/-- Models Python's `sorted(l, key=key)`.  Python's sort is stable, so its
output is uniquely determined: elements in ascending key order with ties kept
in original order; repeatedly selecting the earliest remaining minimal
element produces exactly that sequence.  Fuel is the list length. -/
def pySortedAux {α β : Type} [DecidableEq α] [LinearOrder β] (key : α → β) :
    ℕ → List α → List α
  | 0, _ => []
  | _ + 1, [] => []
  | n + 1, l =>
    match firstMinBy key l with
    | Option.none => []
    | Option.some m => m :: pySortedAux key n (l.erase m)

/-- Python's `sorted(l, key=key)` (ascending, stable). -/
def pySorted {α β : Type} [DecidableEq α] [LinearOrder β] (key : α → β)
    (l : List α) : List α :=
  pySortedAux key l.length l

/-- As `pySortedAux`, for `sorted(l, key=key, reverse=True)`: descending,
stable, so the earliest remaining maximal element comes first. -/
def pySortedDescAux {α β : Type} [DecidableEq α] [LinearOrder β] (key : α → β) :
    ℕ → List α → List α
  | 0, _ => []
  | _ + 1, [] => []
  | n + 1, l =>
    match firstMaxBy key l with
    | Option.none => []
    | Option.some m => m :: pySortedDescAux key n (l.erase m)

/-- Python's `sorted(l, key=key, reverse=True)` (descending, stable). -/
def pySortedDesc {α β : Type} [DecidableEq α] [LinearOrder β] (key : α → β)
    (l : List α) : List α :=
  pySortedDescAux key l.length l

/-! ## Device pairing strategy (`_get_pairing_key`, `_apply_pairing_strategy`) -/

/-- `_get_pairing_key`: the device serial used as pairing key; a missing
device object (`AttributeError` / `None`) resolves to `none`. -/
def pairingKey (cfg : GraphConfig) (m : Measurement) : Option String :=
  if cfg.pairingDevice = "pia" then m.pia
  else if cfg.pairingDevice = "pmt" then m.pmt
  else Option.none

/-- The numeric value of a measurement.  Every modelled call site filters out
records with a missing value first, so the `getD` default is never
exercised. -/
def mval (m : Measurement) : ℚ :=
  m.measurement.getD 0

/-- The `best` branch of `_apply_pairing_strategy`: running
(measurement, score) fold keeping the earliest strict minimizer of
`|value − nominal|` among records with a nominal. -/
def bestFold (ms : List Measurement) : Option (Measurement × ℚ) :=
  ms.foldl (fun acc m =>
    match m.nominal with
    | Option.none => acc
    | Option.some nom =>
      let score := |mval m - nom|
      match acc with
      | Option.none => Option.some (m, score)
      | Option.some (b, bs) =>
          if score < bs then Option.some (m, score) else Option.some (b, bs))
    Option.none

/-- Embedding of `_apply_pairing_strategy`. -/
def applyPairingStrategy (cfg : GraphConfig) (ms : List Measurement) :
    Option Measurement :=
  if ms.isEmpty then Option.none
  else if cfg.pairingStrategy = "first" then ms.head?
  else if cfg.pairingStrategy = "last" then ms.getLast?
  else if cfg.pairingStrategy = "best" then
    match bestFold ms with
    | Option.some b => Option.some b.1
    | Option.none => ms.getLast?
  else ms.getLast?

/-! ## Per-group extraction (`_extract_standard_data`,
`_extract_comparison_same`, `_extract_comparison_different`) -/

/-- One emitted point of `_extract_standard_data`: x value, tick label,
y value (`none` = NaN) and the enumerate index of the originating record. -/
structure Row where
  x : ℚ
  label : ℚ
  y : Option ℚ
  idx : ℕ
deriving DecidableEq, Repr

/-- The point-emitting loop of `_extract_standard_data`: `cur` is the running
global x index, `idx` the `enumerate` counter; plot-type records are
skipped. -/
def extractStandardRows (cfg : GraphConfig) :
    List Measurement → ℕ → ℕ → List Row
  | [], _, _ => []
  | m :: ms, cur, idx =>
    if m.hasPlot && m.plotNonempty then
      extractStandardRows cfg ms cur (idx + 1)
    else if cfg.xAxisUseIndices && cfg.graphType == GraphType.scatter then
      { x := (cur : ℚ), label := m.xFieldValue, y := m.measurement, idx := idx }
        :: extractStandardRows cfg ms (cur + 1) (idx + 1)
    else
      { x := m.xFieldValue, label := m.xFieldValue, y := m.measurement,
        idx := idx } :: extractStandardRows cfg ms cur (idx + 1)

/-- Embedding of `_extract_standard_data`:
`(x_data, x_labels, y_data, is_outlier, measurement_indices)`. -/
def extract_standard_data (cfg : GraphConfig) (ms : List Measurement)
    (startX : ℕ) :
    List ℚ × List ℚ × List (Option ℚ) × List Bool × List ℕ :=
  let rows := extractStandardRows cfg ms startX 0
  let yData := rows.map Row.y
  let isOutlier :=
    if cfg.removeOutliers then detect_outliers yData 3
    else List.replicate yData.length false
  (rows.map Row.x, rows.map Row.label, yData, isOutlier, rows.map Row.idx)

/-- The device-grouping loop of `_extract_comparison_same`: per truthy
pairing key, the `(fixture, record)` pairs of records whose name matches the
target x-axis measurement and whose value is present. -/
def groupByDevice (cfg : GraphConfig) (ms : List Measurement) :
    List (String × List (String × Measurement)) :=
  ms.foldl (fun acc m =>
    if cfg.xAxisMeasurement ≠ Option.some m.name ∨ m.measurement = Option.none
    then acc
    else
      let k := pairingKey cfg m
      if truthy k then addToGroup (k.getD "") (m.fixture, m) acc else acc)
    []

/-- `fixtures_dict` of `_extract_comparison_same`: one device's
`(fixture, record)` pairs bucketed by fixture in insertion order. -/
def fixturesDictOf (fms : List (String × Measurement)) :
    List (String × List Measurement) :=
  fms.foldl (fun acc p => addToGroup p.1 p.2 acc) []

/-- The per-device body of `_extract_comparison_same`: bucket the records by
fixture, sort the fixture names (`sorted(fixtures_dict.keys())`), and when at
least two fixtures exist pick representatives of the first two via the
pairing strategy. -/
def pairDevice (cfg : GraphConfig) (fms : List (String × Measurement)) :
    Option (Measurement × Measurement) :=
  let fixturesDict := fixturesDictOf fms
  let fixtures := pySorted id (fixturesDict.map Prod.fst)
  if 2 ≤ fixtures.length then
    match fixtures[0]?, fixtures[1]? with
    | Option.some xf, Option.some yf =>
      match applyPairingStrategy cfg (lookupGroup xf fixturesDict),
            applyPairingStrategy cfg (lookupGroup yf fixturesDict) with
      | Option.some xm, Option.some ym => Option.some (xm, ym)
      | _, _ => Option.none
    | _, _ => Option.none
  else Option.none

/-- Embedding of `_extract_comparison_same`:
`(x_data, y_data, is_outlier, measurement_indices, measurement_pairs)`. -/
def extract_comparison_same (cfg : GraphConfig) (ms : List Measurement) :
    List ℚ × List ℚ × List Bool × List ℕ × List (Measurement × Measurement) :=
  let pairs := (groupByDevice cfg ms).filterMap (fun g => pairDevice cfg g.2)
  let xData := pairs.map (fun p => mval p.1)
  let yData := pairs.map (fun p => mval p.2)
  let isOutlier :=
    if cfg.removeOutliers && decide (0 < xData.length) then
      (detect_outliers (xData.map Option.some) 3).zipWith (fun a b => a || b)
        (detect_outliers (yData.map Option.some) 3)
    else List.replicate xData.length false
  (xData, yData, isOutlier, List.range xData.length, pairs)

/-- Embedding of `_extract_comparison_different`: one last-wins dict per axis
keyed by owning test id (`elif`: a record can only land in the x dict), then
the x keys are traversed in insertion order and paired with the y dict. -/
def extract_comparison_different (cfg : GraphConfig) (ms : List Measurement) :
    List ℚ × List ℚ × List Bool × List ℕ × List (Measurement × Measurement) :=
  let dicts := ms.foldl (fun acc m =>
    if cfg.xAxisMeasurement = Option.some m.name ∧ m.measurement ≠ Option.none
    then (upsert m.testId (m, mval m) acc.1, acc.2)
    else if cfg.yAxisMeasurement = Option.some m.name ∧
        m.measurement ≠ Option.none then
      (acc.1, upsert m.testId (m, mval m) acc.2)
    else acc)
    (([] : List (String × (Measurement × ℚ))),
     ([] : List (String × (Measurement × ℚ))))
  let rows := dicts.1.filterMap (fun kv =>
    match dicts.2.find? (fun g => g.1 = kv.1) with
    | Option.some g => Option.some (kv.2.2, g.2.2, kv.2.1, g.2.1)
    | Option.none => Option.none)
  let xData := rows.map (fun r => r.1)
  let yData := rows.map (fun r => r.2.1)
  let isOutlier :=
    if cfg.removeOutliers then
      (detect_outliers (xData.map Option.some) 3).zipWith (fun a b => a || b)
        (detect_outliers (yData.map Option.some) 3)
    else List.replicate xData.length false
  (xData, yData, isOutlier, List.range xData.length,
   rows.map (fun r => (r.2.2.1, r.2.2.2)))

/-! ## Group preparation and the `prepare_data` pipeline -/

/-- One prepared group (`_prepare_group_data` output).  In the comparison
modes the source leaves `x_labels` unset; the model uses `[]` there, and
`y_data` entries are always-present values wrapped in `some`. -/
structure GroupData where
  plotMeasurements : List Measurement
  scalarMeasurements : List Measurement
  hasPlots : Bool
  xData : List ℚ
  xLabels : List ℚ
  yData : List (Option ℚ)
  isOutlier : List Bool
  measurementIndices : List ℕ
  measurementPairs : List (Measurement × Measurement)
deriving DecidableEq, Repr

/-- Embedding of `_prepare_group_data`. -/
def prepareGroupData (cfg : GraphConfig) (ms : List Measurement)
    (startX : ℕ) : GroupData :=
  let plotMs := ms.filter
    (fun m => m.hasPlot && m.plotNonempty && cfg.autoOverlayPlots)
  let scalarMs := ms.filter
    (fun m => !(m.hasPlot && m.plotNonempty && cfg.autoOverlayPlots))
  match cfg.comparisonMode with
  | ComparisonMode.none =>
    let r := extract_standard_data cfg ms startX
    { plotMeasurements := plotMs, scalarMeasurements := scalarMs,
      hasPlots := !plotMs.isEmpty, xData := r.1, xLabels := r.2.1,
      yData := r.2.2.1, isOutlier := r.2.2.2.1,
      measurementIndices := r.2.2.2.2, measurementPairs := [] }
  | ComparisonMode.sameMeasurement =>
    let r := extract_comparison_same cfg ms
    { plotMeasurements := plotMs, scalarMeasurements := scalarMs,
      hasPlots := !plotMs.isEmpty, xData := r.1, xLabels := [],
      yData := r.2.1.map Option.some, isOutlier := r.2.2.1,
      measurementIndices := r.2.2.2.1, measurementPairs := r.2.2.2.2 }
  | ComparisonMode.differentMeasurements =>
    let r := extract_comparison_different cfg ms
    { plotMeasurements := plotMs, scalarMeasurements := scalarMs,
      hasPlots := !plotMs.isEmpty, xData := r.1, xLabels := [],
      yData := r.2.1.map Option.some, isOutlier := r.2.2.1,
      measurementIndices := r.2.2.2.1, measurementPairs := r.2.2.2.2 }

/-- The per-group loop of `prepare_data`: threads the global x index
(`global_x_index`, advanced by group size + 1 for each group with non-empty
x data), and accumulates the has-plots flag and the total point count.
Returns `(prepared groups, has_plots, total_points)`. -/
def prepareGroupsGo (cfg : GraphConfig) :
    List (String × List Measurement) → ℕ →
      List (String × GroupData) × Bool × ℕ
  | [], _ => ([], false, 0)
  | (name, gms) :: rest, gx =>
    let gd := prepareGroupData cfg gms gx
    let n := gd.xData.length
    let gx₂ := if n = 0 then gx else gx + n + 1
    let r := prepareGroupsGo cfg rest gx₂
    ((name, gd) :: r.1, gd.hasPlots || r.2.1, (if n = 0 then 0 else n) + r.2.2)

/-- Embedding of `graph_utils.get_grouped_data`: insertion-ordered grouping
by the resolved grouping-field value, with `"Unknown"` for unresolved
chains. -/
def get_grouped_data (ms : List Measurement) :
    List (String × List Measurement) :=
  ms.foldl (fun acc m => addToGroup (m.groupValue.getD "Unknown") m acc) []

/-- The prepared dataset (`self.prepared_data`): groups plus the aggregate
metadata.  The axis-label strings of the metadata are cosmetic and not
modelled. -/
structure PreparedData where
  groups : List (String × GroupData)
  hasPlots : Bool
  totalPoints : ℕ
deriving DecidableEq, Repr

/-- Embedding of `MeasurementGraphGenerator.prepare_data`: raises
(`Except.error`) on an empty measurement list; otherwise groups (single
"All Data" bucket in comparison mode or when no grouping field is set) and
prepares each group. -/
def prepare_data (cfg : GraphConfig) : Except String PreparedData :=
  let ms := cfg.measurements
  if ms.isEmpty then Except.error "No measurements provided"
  else
    let groups :=
      if cfg.comparisonMode ≠ ComparisonMode.none then [("All Data", ms)]
      else if truthy cfg.groupByField then get_grouped_data ms
      else [("All Data", ms)]
    let r := prepareGroupsGo cfg groups 0
    Except.ok { groups := r.1, hasPlots := r.2.1, totalPoints := r.2.2 }

/-- A valid same-measurement configuration used by witnesses. -/
def cfgSame : GraphConfig :=
  { measurements := []
    comparisonMode := ComparisonMode.sameMeasurement
    xAxisMeasurement := Option.some "V" }

/-- Witness for C8: a concrete same-measurement config passes validation with
its y-axis measurement auto-filled, and the error clauses hold. -/
theorem postInit_validation_witness :
    ((cfgSame.comparisonMode = ComparisonMode.differentMeasurements →
      truthy cfgSame.yAxisMeasurement = false →
        ∃ e, postInit cfgSame = Except.error e)
    ∧ (cfgSame.comparisonMode = ComparisonMode.sameMeasurement →
      truthy cfgSame.yAxisMeasurement = true →
      cfgSame.yAxisMeasurement ≠ cfgSame.xAxisMeasurement →
        ∃ e, postInit cfgSame = Except.error e)
    ∧ (cfgSame.comparisonMode = ComparisonMode.sameMeasurement →
      ∀ c', postInit cfgSame = Except.ok c' →
        c'.yAxisMeasurement = cfgSame.xAxisMeasurement))
    ∧ (postInit cfgSame).isOk = true :=
  ⟨postInit_validation cfgSame, by decide⟩

/-! ## Index-based scatter x values (C2) -/

/-- Number of scalar (non-plot) records of a group: exactly the points that
receive an x index in `_extract_standard_data`. -/
def scalarCount (gms : List Measurement) : ℕ :=
  (gms.filter (fun m => !(m.hasPlot && m.plotNonempty))).length

/-- The start index of group `k`, as the spec phrases it: the first group
starts at the running start; each non-empty group advances the start by its
size plus one (the inter-group gap); an empty group leaves it unchanged. -/
def groupStart : List (List Measurement) → ℕ → ℕ → ℕ
  | _, start, 0 => start
  | [], start, _ + 1 => start
  | g :: gs, start, k + 1 =>
      groupStart gs
        (if scalarCount g = 0 then start else start + scalarCount g + 1) k

lemma scalarCount_cons_skip {m : Measurement}
    (hp : (m.hasPlot && m.plotNonempty) = true) (ms : List Measurement) :
    scalarCount (m :: ms) = scalarCount ms := by
  cases hm : m.hasPlot <;> cases hn : m.plotNonempty <;>
    simp_all [scalarCount, List.filter_cons]

lemma scalarCount_cons_keep {m : Measurement}
    (hp : ¬ (m.hasPlot && m.plotNonempty) = true) (ms : List Measurement) :
    scalarCount (m :: ms) = scalarCount ms + 1 := by
  cases hm : m.hasPlot <;> cases hn : m.plotNonempty <;>
    simp_all [scalarCount, List.filter_cons]

lemma extractStandardRows_x (cfg : GraphConfig)
    (hux : cfg.xAxisUseIndices = true)
    (hsc : cfg.graphType = GraphType.scatter) :
    ∀ (ms : List Measurement) (cur idx : ℕ),
      (extractStandardRows cfg ms cur idx).map Row.x
        = (List.range' cur (scalarCount ms)).map (fun n : ℕ => (n : ℚ))
  | [], cur, idx => by
    rw [extractStandardRows, scalarCount]
    rfl
  | m :: ms, cur, idx => by
    by_cases hp : (m.hasPlot && m.plotNonempty) = true
    · rw [extractStandardRows, if_pos hp,
        extractStandardRows_x cfg hux hsc ms cur (idx + 1),
        scalarCount_cons_skip hp]
    · rw [extractStandardRows, if_neg hp, if_pos (by simp [hux, hsc]),
        List.map_cons, extractStandardRows_x cfg hux hsc ms (cur + 1) (idx + 1),
        scalarCount_cons_keep hp, List.range'_succ, List.map_cons]

lemma prepareGroupData_xData_standard (cfg : GraphConfig)
    (hcm : cfg.comparisonMode = ComparisonMode.none)
    (hux : cfg.xAxisUseIndices = true)
    (hsc : cfg.graphType = GraphType.scatter)
    (gms : List Measurement) (start : ℕ) :
    (prepareGroupData cfg gms start).xData
      = (List.range' start (scalarCount gms)).map (fun n : ℕ => (n : ℚ)) := by
  simp only [prepareGroupData, hcm, extract_standard_data]
  exact extractStandardRows_x cfg hux hsc gms start 0

lemma prepareGroupData_xData_length (cfg : GraphConfig)
    (hcm : cfg.comparisonMode = ComparisonMode.none)
    (hux : cfg.xAxisUseIndices = true)
    (hsc : cfg.graphType = GraphType.scatter)
    (gms : List Measurement) (start : ℕ) :
    (prepareGroupData cfg gms start).xData.length = scalarCount gms := by
  rw [prepareGroupData_xData_standard cfg hcm hux hsc gms start,
    List.length_map, List.length_range']

lemma prepareGroupsGo_xData (cfg : GraphConfig)
    (hcm : cfg.comparisonMode = ComparisonMode.none)
    (hux : cfg.xAxisUseIndices = true)
    (hsc : cfg.graphType = GraphType.scatter) :
    ∀ (groups : List (String × List Measurement)) (start k : ℕ)
      (hk : k < groups.length),
      ∃ gd : GroupData,
        (prepareGroupsGo cfg groups start).1[k]? =
          Option.some ((groups.get ⟨k, hk⟩).1, gd)
        ∧ gd.xData = (List.range'
            (groupStart (groups.map Prod.snd) start k)
            (scalarCount (groups.get ⟨k, hk⟩).2)).map (fun n : ℕ => (n : ℚ))
  | [], start, k, hk => absurd hk (by simp)
  | (name, gms) :: rest, start, 0, hk => by
    refine ⟨prepareGroupData cfg gms start, ?_, ?_⟩
    · simp only [prepareGroupsGo, List.getElem?_cons_zero]
      rfl
    · exact prepareGroupData_xData_standard cfg hcm hux hsc gms start
  | (name, gms) :: rest, start, k + 1, hk => by
    have hk' : k < rest.length := by simpa using Nat.lt_of_succ_lt_succ hk
    have hlen := prepareGroupData_xData_length cfg hcm hux hsc gms start
    obtain ⟨gd, h1, h2⟩ := prepareGroupsGo_xData cfg hcm hux hsc rest
      (if (prepareGroupData cfg gms start).xData.length = 0 then start
       else start + (prepareGroupData cfg gms start).xData.length + 1) k hk'
    rw [hlen] at h2
    refine ⟨gd, ?_, ?_⟩
    · simp only [prepareGroupsGo, List.getElem?_cons_succ]
      exact h1
    · exact h2

/-- C2: in standard mode with index-based scatter x values, the x data of
group `k` is the consecutive integer range starting at the running start
index described by `groupStart` (each non-empty group advances the start by
its size plus one), and between two consecutive non-empty groups the next
start is the previous start plus the previous size plus one — i.e. a gap of
exactly one empty slot. -/
theorem index_continuity (cfg : GraphConfig)
    (hux : cfg.xAxisUseIndices = true)
    (hsc : cfg.graphType = GraphType.scatter)
    (hcm : cfg.comparisonMode = ComparisonMode.none)
    (groups : List (String × List Measurement)) (start : ℕ) :
    (∀ k (hk : k < groups.length),
      ∃ gd : GroupData,
        (prepareGroupsGo cfg groups start).1[k]? =
          Option.some ((groups.get ⟨k, hk⟩).1, gd)
        ∧ gd.xData = (List.range'
            (groupStart (groups.map Prod.snd) start k)
            (scalarCount (groups.get ⟨k, hk⟩).2)).map (fun n : ℕ => (n : ℚ)))
    ∧ (∀ k (hk : k + 1 < groups.length),
        scalarCount (groups.get ⟨k, by omega⟩).2 ≠ 0 →
        scalarCount (groups.get ⟨k + 1, hk⟩).2 ≠ 0 →
          groupStart (groups.map Prod.snd) start (k + 1)
            = groupStart (groups.map Prod.snd) start k
              + scalarCount (groups.get ⟨k, by omega⟩).2 + 1) := by
  constructor
  · exact fun k hk => prepareGroupsGo_xData cfg hcm hux hsc groups start k hk
  · intro k
    induction k generalizing groups start with
    | zero =>
      intro hk h0 _
      rcases groups with _ | ⟨g0, _ | ⟨g1, rest⟩⟩
      · simp at hk
      · simp at hk
      · have h0' : scalarCount g0.2 ≠ 0 := h0
        show (if scalarCount g0.2 = 0 then start
              else start + scalarCount g0.2 + 1)
            = start + scalarCount g0.2 + 1
        exact if_neg h0'
    | succ k ih =>
      intro hk h0 h1
      rcases groups with _ | ⟨g0, rest⟩
      · simp at hk
      · have hk' : k + 1 < rest.length := by
          simpa using Nat.lt_of_succ_lt_succ hk
        exact ih rest
          (if scalarCount g0.2 = 0 then start
           else start + scalarCount g0.2 + 1) hk' h0 h1

/-- Scalar-only measurement used in concrete examples. -/
def mkScalar (v : ℚ) : Measurement :=
  { name := "M", measurement := Option.some v, nominal := Option.none,
    hasPlot := false, plotNonempty := false, pia := Option.none,
    pmt := Option.none, fixture := "F", xFieldValue := 0,
    groupValue := Option.none, testId := "t" }

/-- A default standard-mode configuration (indices on, scatter). -/
def cfgStd : GraphConfig := {}

/-- Two example groups of sizes 3 and 4. -/
def exGroups : List (String × List Measurement) :=
  [("A", [mkScalar 1, mkScalar 2, mkScalar 3]),
   ("B", [mkScalar 4, mkScalar 5, mkScalar 6, mkScalar 7])]

/-- Witness for C2: groups of size 3 and 4 produce x indices
`{0,1,2}` and `{4,5,6,7}`. -/
theorem index_continuity_witness :
    cfgStd.xAxisUseIndices = true ∧ cfgStd.graphType = GraphType.scatter ∧
    cfgStd.comparisonMode = ComparisonMode.none ∧
    (∃ gd0 : GroupData,
      (prepareGroupsGo cfgStd exGroups 0).1[0]? = Option.some ("A", gd0)
      ∧ gd0.xData = [0, 1, 2]) ∧
    (∃ gd1 : GroupData,
      (prepareGroupsGo cfgStd exGroups 0).1[1]? = Option.some ("B", gd1)
      ∧ gd1.xData = [4, 5, 6, 7]) := by
  refine ⟨rfl, rfl, rfl, ?_, ?_⟩
  · obtain ⟨gd, h1, h2⟩ :=
      (index_continuity cfgStd rfl rfl rfl exGroups 0).1 0 (by decide)
    exact ⟨gd, h1, by rw [h2]; decide⟩
  · obtain ⟨gd, h1, h2⟩ :=
      (index_continuity cfgStd rfl rfl rfl exGroups 0).1 1 (by decide)
    exact ⟨gd, h1, by rw [h2]; decide⟩

/-! ## Empty measurement list (C5) -/

/-- C5 counterexample: `prepare_data` on an empty measurement list does not
return an empty/no-data result — it raises
`ValueError("No measurements provided")`, modelled as `Except.error`. -/
theorem prepare_data_empty_counterexample :
    prepare_data { measurements := [] } =
      Except.error "No measurements provided" := rfl

/-- C5 (amended): for every configuration whose measurement list is empty,
`prepare_data` raises `ValueError("No measurements provided")` (the worker
catches it and emits an error signal); it does not return an empty
result. -/
theorem prepare_data_empty_raises (cfg : GraphConfig)
    (h : cfg.measurements = []) :
    prepare_data cfg = Except.error "No measurements provided" := by
  simp [prepare_data, h]

/-- Witness for the amended C5 at a concrete empty configuration. -/
theorem prepare_data_empty_raises_witness :
    ({ measurements := [] } : GraphConfig).measurements = []
    ∧ prepare_data { measurements := [] } =
        Except.error "No measurements provided" :=
  ⟨rfl, prepare_data_empty_raises { measurements := [] } rfl⟩

/-! ## Point deletion and undo (`_delete_point`, `reset_deletions`)

`_delete_point(item, point_idx, ...)` mutates the clicked scatter item, the
`point_measurement_map` (keyed by `(id(item), index)`; values are the mapped
record, modelled by a record id) and the `deleted_items` set of point-id
strings.  `itemId` models Python `id(item)`; `isScatter` models
`isinstance(item, pg.ScatterPlotItem)`. -/

/-- One rendered scatter collection with its current coordinate arrays. -/
structure ScatterItem where
  itemId : ℕ
  isScatter : Bool
  xData : List ℚ
  yData : List ℚ
deriving DecidableEq, Repr

/-- The point-id string `f"{item_id}_{point_idx}"`. -/
def pointId (itemId pointIdx : ℕ) : String :=
  toString itemId ++ "_" ++ toString pointIdx

/-- The interaction state read and written by `_delete_point`. -/
structure DeleteState where
  item : ScatterItem
  pointMap : List ((ℕ × ℕ) × ℕ)
  deletedItems : Finset String
deriving DecidableEq

/-- The `new_map` construction of `_delete_point`: within the deleted item,
entries below the deleted index are kept, entries above it shift down by
one, the entry at the index is dropped; other items pass through. -/
def reindexMap (itemId pointIdx : ℕ) (pmap : List ((ℕ × ℕ) × ℕ)) :
    List ((ℕ × ℕ) × ℕ) :=
  pmap.filterMap (fun e =>
    if e.1.1 = itemId then
      if e.1.2 < pointIdx then Option.some e
      else if pointIdx < e.1.2 then Option.some ((e.1.1, e.1.2 - 1), e.2)
      else Option.none
    else Option.some e)

/-- Embedding of `_delete_point`.  The point id is added to `deleted_items`
before any data guard (as in the source).  An empty (or missing) coordinate
array returns early; on a non-empty array an out-of-range `point_idx` makes
`mask[point_idx] = False` raise a NumPy `IndexError`, modelled as
`Except.error`. -/
def deletePoint (s : DeleteState) (pointIdx : ℕ) : Except String DeleteState :=
  if ¬ s.item.isScatter then Except.ok s
  else
    let deleted := insert (pointId s.item.itemId pointIdx) s.deletedItems
    if s.item.xData.length = 0 then
      Except.ok { s with deletedItems := deleted }
    else if s.item.xData.length ≤ pointIdx then
      Except.error "IndexError"
    else
      Except.ok
        { item := { s.item with
            xData := s.item.xData.eraseIdx pointIdx,
            yData := s.item.yData.eraseIdx pointIdx },
          pointMap := reindexMap s.item.itemId pointIdx s.pointMap,
          deletedItems := deleted }

lemma mem_reindexMap (itemId pointIdx : ℕ) (pmap : List ((ℕ × ℕ) × ℕ))
    (cid i v : ℕ) :
    ((cid, i), v) ∈ reindexMap itemId pointIdx pmap ↔
      ((cid ≠ itemId ∧ ((cid, i), v) ∈ pmap)
       ∨ (cid = itemId ∧ i < pointIdx ∧ ((cid, i), v) ∈ pmap)
       ∨ (cid = itemId ∧ pointIdx ≤ i ∧ ((cid, i + 1), v) ∈ pmap)) := by
  rw [reindexMap, List.mem_filterMap]
  constructor
  · rintro ⟨⟨⟨sid, sidx⟩, w⟩, hmem, hf⟩
    simp only at hf
    by_cases hsid : sid = itemId
    · rw [if_pos hsid] at hf
      by_cases hlt : sidx < pointIdx
      · rw [if_pos hlt] at hf
        injection hf with hf
        injection hf with h1 h2
        injection h1 with h3 h4
        subst h3; subst h4; subst h2
        exact Or.inr (Or.inl ⟨hsid, hlt, hmem⟩)
      · rw [if_neg hlt] at hf
        by_cases hgt : pointIdx < sidx
        · rw [if_pos hgt] at hf
          injection hf with hf
          injection hf with h1 h2
          injection h1 with h3 h4
          subst h3; subst h4; subst h2
          refine Or.inr (Or.inr ⟨hsid, by omega, ?_⟩)
          have heq : sidx - 1 + 1 = sidx := by omega
          rwa [heq]
        · rw [if_neg hgt] at hf
          cases hf
    · rw [if_neg hsid] at hf
      injection hf with hf
      injection hf with h1 h2
      injection h1 with h3 h4
      subst h3; subst h4; subst h2
      exact Or.inl ⟨hsid, hmem⟩
  · rintro (⟨hne, hmem⟩ | ⟨heq, hlt, hmem⟩ | ⟨heq, hge, hmem⟩)
    · exact ⟨((cid, i), v), hmem, by simp only [if_neg hne]⟩
    · exact ⟨((cid, i), v), hmem, by simp only [if_pos heq, if_pos hlt]⟩
    · refine ⟨((cid, i + 1), v), hmem, ?_⟩
      simp only [if_pos heq, if_neg (show ¬ i + 1 < pointIdx by omega),
        if_pos (show pointIdx < i + 1 by omega)]
      have : i + 1 - 1 = i := by omega
      rw [this]

/-- C4: deleting a valid index of a scatter collection succeeds and
re-indexes the point→record map: entries of other collections are unchanged,
entries of the same collection below the deleted index are unchanged, and
the surviving higher entries are exactly the old entries shifted down by
one (so the deleted index's own entry is removed). -/
theorem delete_reindexes_map (s : DeleteState) (pointIdx : ℕ)
    (hsc : s.item.isScatter = true)
    (hin : pointIdx < s.item.xData.length) :
    ∃ s₂, deletePoint s pointIdx = Except.ok s₂
      ∧ ∀ cid i v, ((cid, i), v) ∈ s₂.pointMap ↔
          ((cid ≠ s.item.itemId ∧ ((cid, i), v) ∈ s.pointMap)
           ∨ (cid = s.item.itemId ∧ i < pointIdx ∧
               ((cid, i), v) ∈ s.pointMap)
           ∨ (cid = s.item.itemId ∧ pointIdx ≤ i ∧
               ((cid, i + 1), v) ∈ s.pointMap)) := by
  rw [deletePoint, if_neg (by simp [hsc]),
    if_neg (show ¬ s.item.xData.length = 0 by omega),
    if_neg (show ¬ s.item.xData.length ≤ pointIdx by omega)]
  exact ⟨_, rfl,
    fun cid i v => mem_reindexMap s.item.itemId pointIdx s.pointMap cid i v⟩

/-- A 5-point scatter collection (id 7) with map entries at indices 0–4 and
a second collection (id 9) with one entry. -/
def exDeleteState : DeleteState :=
  { item :=
      { itemId := 7
        isScatter := true
        xData := [10, 11, 12, 13, 14]
        yData := [0, 1, 2, 3, 4] }
    pointMap := [((7, 0), 100), ((7, 1), 101), ((7, 2), 102),
                 ((7, 3), 103), ((7, 4), 104), ((9, 0), 200)]
    deletedItems := ∅ }

/-- Witness for C4: deleting index 2 of the 5-point collection. -/
theorem delete_reindexes_map_witness :
    exDeleteState.item.isScatter = true
    ∧ 2 < exDeleteState.item.xData.length
    ∧ (∃ s₂, deletePoint exDeleteState 2 = Except.ok s₂
        ∧ ∀ cid i v, ((cid, i), v) ∈ s₂.pointMap ↔
            ((cid ≠ exDeleteState.item.itemId ∧
                ((cid, i), v) ∈ exDeleteState.pointMap)
             ∨ (cid = exDeleteState.item.itemId ∧ i < 2 ∧
                 ((cid, i), v) ∈ exDeleteState.pointMap)
             ∨ (cid = exDeleteState.item.itemId ∧ 2 ≤ i ∧
                 ((cid, i + 1), v) ∈ exDeleteState.pointMap))) :=
  ⟨rfl, by decide, delete_reindexes_map exDeleteState 2 rfl (by decide)⟩

/-- C9 counterexample: deleting out-of-range index 5 of a non-empty 3-point
collection is not a guarded no-op — `mask[point_idx] = False` raises a NumPy
`IndexError`. -/
theorem delete_out_of_range_counterexample :
    deletePoint
      { item :=
          { itemId := 7
            isScatter := true
            xData := [1, 2, 3]
            yData := [4, 5, 6] }
        pointMap := []
        deletedItems := ∅ } 5
      = Except.error "IndexError" := rfl

/-- C9 (amended): for an out-of-range index, `_delete_point` is a guarded
no-op (apart from recording the point id as deleted) only when the
collection's coordinate array is empty; on a non-empty collection it raises
an `IndexError`. -/
theorem delete_out_of_range (s : DeleteState) (pointIdx : ℕ)
    (hsc : s.item.isScatter = true)
    (hout : s.item.xData.length ≤ pointIdx) :
    (s.item.xData.length = 0 →
      ∃ s₂, deletePoint s pointIdx = Except.ok s₂
        ∧ s₂.item = s.item ∧ s₂.pointMap = s.pointMap)
    ∧ (s.item.xData.length ≠ 0 →
        deletePoint s pointIdx = Except.error "IndexError") := by
  constructor
  · intro hzero
    rw [deletePoint, if_neg (by simp [hsc]), if_pos hzero]
    exact ⟨_, rfl, rfl, rfl⟩
  · intro hnz
    rw [deletePoint, if_neg (by simp [hsc]), if_neg hnz, if_pos hout]

/-- Witness for the amended C9 at a concrete out-of-range deletion. -/
theorem delete_out_of_range_witness :
    exDeleteState.item.isScatter = true
    ∧ exDeleteState.item.xData.length ≤ 9
    ∧ ((exDeleteState.item.xData.length = 0 →
        ∃ s₂, deletePoint exDeleteState 9 = Except.ok s₂
          ∧ s₂.item = exDeleteState.item
          ∧ s₂.pointMap = exDeleteState.pointMap)
      ∧ (exDeleteState.item.xData.length ≠ 0 →
          deletePoint exDeleteState 9 = Except.error "IndexError")) :=
  ⟨rfl, by decide, delete_out_of_range exDeleteState 9 rfl (by decide)⟩

/-! ## Session-level undo (C3) -/

/-- The session state of the generator relevant to deletion/undo: the
working prepared dataset (`self.prepared_data`), the pristine snapshot
(`self.original_data`), the deleted-item ids, and the rendered item plus
point map the deletion handler mutates.  `D` is the type of the prepared
dataset. -/
structure SessionState (D : Type) where
  preparedData : Option D
  originalData : Option D
  deletedItems : Finset String
  item : ScatterItem
  pointMap : List ((ℕ × ℕ) × ℕ)

/-- The tail of `prepare_data`: stores the freshly prepared dataset and
snapshots a deep copy into `original_data` (a deep copy is a value copy in
the model, and later mutation of the working state cannot reach it). -/
def prepareSession {D : Type} (s : SessionState D) (d : D) : SessionState D :=
  { s with preparedData := Option.some d, originalData := Option.some d }

/-- One `_delete_point` call at session level.  On an `IndexError` the
mutation made before the raise (the `deleted_items` insertion) persists and
the exception propagates to the Qt event loop; everything else is
unchanged. -/
def deleteSessionStep {D : Type} (s : SessionState D) (pointIdx : ℕ) :
    SessionState D :=
  match deletePoint
      { item := s.item
        pointMap := s.pointMap
        deletedItems := s.deletedItems } pointIdx with
  | Except.ok d =>
      { s with
        item := d.item
        pointMap := d.pointMap
        deletedItems := d.deletedItems }
  | Except.error _ =>
      { s with deletedItems :=
          insert (pointId s.item.itemId pointIdx) s.deletedItems }

/-- Embedding of `reset_deletions`: clears `deleted_items` and replaces the
working prepared data with a fresh deep copy of the pristine snapshot (the
re-plot calls are rendering and outside the model). -/
def reset_deletions {D : Type} (s : SessionState D) : SessionState D :=
  { s with
    deletedItems := ∅
    preparedData :=
      match s.originalData with
      | Option.some d => Option.some d
      | Option.none => s.preparedData }

/-- C3: undo is an all-or-nothing round trip — after any sequence of point
deletions applied to the working state, `reset_deletions` restores the
working prepared data to the snapshot captured right after `prepare_data`
(deep-equality is value equality in the model) and clears the deleted-point
ids. -/
theorem undo_roundtrip {D : Type} (s : SessionState D) (d : D)
    (deletions : List ℕ) :
    (reset_deletions
        (deletions.foldl deleteSessionStep (prepareSession s d))).preparedData
      = (prepareSession s d).preparedData
    ∧ (reset_deletions
        (deletions.foldl deleteSessionStep (prepareSession s d))).preparedData
      = Option.some d
    ∧ (reset_deletions
        (deletions.foldl deleteSessionStep (prepareSession s d))).deletedItems
      = ∅ := by
  have horig : ∀ (l : List ℕ) (t : SessionState D),
      (l.foldl deleteSessionStep t).originalData = t.originalData := by
    intro l
    induction l with
    | nil => intro t; rfl
    | cons a l ih =>
      intro t
      rw [List.foldl_cons, ih]
      unfold deleteSessionStep
      split <;> rfl
  have h := horig deletions (prepareSession s d)
  have hp : (reset_deletions
      (deletions.foldl deleteSessionStep (prepareSession s d))).preparedData
      = Option.some d := by
    show (match (deletions.foldl deleteSessionStep
        (prepareSession s d)).originalData with
      | Option.some d => Option.some d
      | Option.none => (deletions.foldl deleteSessionStep
          (prepareSession s d)).preparedData) = Option.some d
    rw [h]
    rfl
  exact ⟨hp, hp, rfl⟩

/-! ## Characterizations of the stable-sort models -/

lemma firstMaxBy_eq_none {α β : Type} [LinearOrder β] (key : α → β) :
    ∀ l : List α, firstMaxBy key l = Option.none ↔ l = []
  | [] => by simp [firstMaxBy]
  | x :: xs => by
    rw [firstMaxBy]
    cases h : firstMaxBy key xs with
    | none => simp
    | some y =>
      by_cases hk : key x < key y <;> simp [hk]

/-- `firstMaxBy` returns the earliest maximal element: everything strictly
before it has a strictly smaller key, and it is maximal overall. -/
lemma firstMaxBy_spec {α β : Type} [LinearOrder β] (key : α → β) :
    ∀ (l : List α) (m : α), firstMaxBy key l = Option.some m →
      ∃ l₁ l₂, l = l₁ ++ m :: l₂
        ∧ (∀ x ∈ l₁, key x < key m)
        ∧ (∀ x ∈ l, key x ≤ key m)
  | [], m, h => by cases h
  | x :: xs, m, h => by
    rw [firstMaxBy] at h
    cases hxs : firstMaxBy key xs with
    | none =>
      rw [hxs] at h
      injection h with h
      subst h
      have hnil : xs = [] := (firstMaxBy_eq_none key xs).mp hxs
      subst hnil
      exact ⟨[], [], rfl, by simp, by simp⟩
    | some y =>
      rw [hxs] at h
      have h₂ : (if key x < key y then Option.some y else Option.some x)
          = Option.some m := h
      obtain ⟨l₁, l₂, heq, hpre, hall⟩ := firstMaxBy_spec key xs y hxs
      by_cases hk : key x < key y
      · rw [if_pos hk] at h₂
        injection h₂ with h₂
        subst h₂
        refine ⟨x :: l₁, l₂, by rw [heq]; rfl, ?_, ?_⟩
        · intro z hz
          rcases List.mem_cons.mp hz with hz | hz
          · subst hz; exact hk
          · exact hpre z hz
        · intro z hz
          rcases List.mem_cons.mp hz with hz | hz
          · subst hz; exact le_of_lt hk
          · exact hall z hz
      · rw [if_neg hk] at h₂
        injection h₂ with h₂
        subst h₂
        refine ⟨[], xs, rfl, by simp, ?_⟩
        intro z hz
        rcases List.mem_cons.mp hz with hz | hz
        · subst hz; exact le_rfl
        · exact le_trans (hall z hz) (not_lt.mp hk)

lemma firstMaxBy_mem {α β : Type} [LinearOrder β] (key : α → β)
    (l : List α) (m : α) (h : firstMaxBy key l = Option.some m) : m ∈ l := by
  obtain ⟨l₁, l₂, heq, -, -⟩ := firstMaxBy_spec key l m h
  rw [heq]
  exact List.mem_append_right l₁ (List.mem_cons_self m l₂)

lemma firstMaxBy_isSome {α β : Type} [LinearOrder β] (key : α → β)
    (l : List α) (hne : l ≠ []) : ∃ m, firstMaxBy key l = Option.some m := by
  cases h : firstMaxBy key l with
  | none => exact absurd ((firstMaxBy_eq_none key l).mp h) hne
  | some m => exact ⟨m, rfl⟩

lemma pySortedDescAux_cons {α β : Type} [DecidableEq α] [LinearOrder β]
    (key : α → β) (n : ℕ) (l : List α) (m : α)
    (h : firstMaxBy key l = Option.some m) :
    pySortedDescAux key (n + 1) l = m :: pySortedDescAux key n (l.erase m) := by
  cases l with
  | nil => cases h
  | cons a as =>
    rw [pySortedDescAux, h]
    simp

/-- The first two elements of Python's descending stable sort are the
earliest maximal element and, after removing it, the earliest maximal
element of the remainder. -/
lemma pySortedDesc_top2 {α β : Type} [DecidableEq α] [LinearOrder β]
    (key : α → β) (l : List α) (h2 : 2 ≤ l.length) :
    ∃ m1 m2, firstMaxBy key l = Option.some m1
      ∧ firstMaxBy key (l.erase m1) = Option.some m2
      ∧ (pySortedDesc key l)[0]? = Option.some m1
      ∧ (pySortedDesc key l)[1]? = Option.some m2 := by
  obtain ⟨m1, h1⟩ := firstMaxBy_isSome key l
    (by intro he; rw [he] at h2; simp at h2)
  have hm1 : m1 ∈ l := firstMaxBy_mem key l m1 h1
  have hlen : (l.erase m1).length = l.length - 1 :=
    List.length_erase_of_mem hm1
  obtain ⟨m2, hm2⟩ := firstMaxBy_isSome key (l.erase m1)
    (by
      intro he
      rw [he] at hlen
      simp at hlen
      omega)
  obtain ⟨j, hj⟩ : ∃ j, l.length = j + 2 := ⟨l.length - 2, by omega⟩
  have hlen2 : (l.erase m1).length = j + 1 := by omega
  refine ⟨m1, m2, h1, hm2, ?_, ?_⟩
  · rw [pySortedDesc, hj, pySortedDescAux_cons key (j + 1) l m1 h1]
    simp
  · rw [pySortedDesc, hj, pySortedDescAux_cons key (j + 1) l m1 h1,
      pySortedDescAux_cons key j (l.erase m1) m2 hm2]
    simp

/-! ## Batch pairing (`graph_page._pair_by_batch`) -/

/-- One measurement record as seen by the page-level pairing helpers; each
field models the value the corresponding accessor
(`_get_device_serial`, `_get_test_fixture`, `_get_pia_batch`,
`_get_pmt_batch`) resolves to (`none` when the attribute chain hits a
missing object).  `mid` is an identity tag to tell records apart. -/
structure PageMeasurement where
  serial : Option String
  fixture : Option String
  piaBatch : Option String
  pmtBatch : Option String
  measurement : Option ℚ
  createdAt : ℤ
  mid : ℕ
deriving DecidableEq, Repr

/-- Numeric value of a page measurement; call sites filter out missing
values first. -/
def pmval (m : PageMeasurement) : ℚ :=
  m.measurement.getD 0

/-- The batch accessor chosen by `batch_type` (`'pia'` uses the PIA part
number, anything else the PMT batch number). -/
def batchOf (batchType : String) (m : PageMeasurement) : Option String :=
  if batchType = "pia" then m.piaBatch else m.pmtBatch

/-- The grouping loop of `_pair_by_batch`: records with a truthy batch and a
present value, bucketed by batch in insertion order. -/
def groupByBatch (batchType : String) (ms : List PageMeasurement) :
    List (String × List PageMeasurement) :=
  ms.foldl (fun acc m =>
    let batch := batchOf batchType m
    if truthy batch ∧ m.measurement ≠ Option.none then
      addToGroup (batch.getD "") m acc
    else acc) []

/-- `sum(...)/len(...)`: the scalar mean of a batch's values. -/
def batchAvg (ms : List PageMeasurement) : ℚ :=
  (ms.map pmval).sum / (ms.length : ℚ)

/-- One output entry of `_pair_by_batch`. -/
structure PairedB where
  deviceId : String
  ourValue : ℚ
  mfrValue : ℚ
  batchA : String
  batchB : String
deriving DecidableEq, Repr

/-- The output row built for record `m` at position `i` of batch `ba`
against the average of batch `bb` (`device_id` falls back to
`f"Device {len(paired)+1}"` for a falsy serial). -/
def mkBatchPair (ba bb : String) (avgB : ℚ) (i : ℕ) (m : PageMeasurement) :
    PairedB :=
  { deviceId :=
      match m.serial with
      | Option.some s => if s.isEmpty then "Device " ++ toString (i + 1) else s
      | Option.none => "Device " ++ toString (i + 1)
    ourValue := pmval m
    mfrValue := avgB
    batchA := ba
    batchB := bb }

/-- Embedding of `graph_page._pair_by_batch`. -/
def pair_by_batch (batchType : String) (ms : List PageMeasurement) :
    List PairedB :=
  let groups := groupByBatch batchType ms
  let batchNames := groups.map Prod.fst
  if batchNames.length < 2 then []
  else
    let sortedB :=
      pySortedDesc (fun b => (lookupGroup b groups).length) batchNames
    match sortedB[0]?, sortedB[1]? with
    | Option.some ba, Option.some bb =>
      let avgB := batchAvg (lookupGroup bb groups)
      (lookupGroup ba groups).mapIdx (mkBatchPair ba bb avgB)
    | _, _ => []

/-- C7: batch pairing groups records by the batch attribute; with fewer than
two batches it returns the empty list; otherwise it selects `ba`, the
first-encountered batch of maximal record count (every earlier batch has a
strictly smaller count — the tie-break), and `bb`, the first-encountered
maximal batch among the remaining ones, and emits exactly one paired point
per record of `ba`, each compared against the scalar mean of `bb`'s
values. -/
theorem batch_pairing (batchType : String) (ms : List PageMeasurement) :
    ((groupByBatch batchType ms).length < 2 →
      pair_by_batch batchType ms = [])
    ∧ (2 ≤ (groupByBatch batchType ms).length →
      ∃ ba bb l₁ l₂ l₃ l₄,
        (groupByBatch batchType ms).map Prod.fst = l₁ ++ ba :: l₂
        ∧ (∀ b ∈ l₁,
            (lookupGroup b (groupByBatch batchType ms)).length <
              (lookupGroup ba (groupByBatch batchType ms)).length)
        ∧ (∀ b ∈ (groupByBatch batchType ms).map Prod.fst,
            (lookupGroup b (groupByBatch batchType ms)).length ≤
              (lookupGroup ba (groupByBatch batchType ms)).length)
        ∧ ((groupByBatch batchType ms).map Prod.fst).erase ba = l₃ ++ bb :: l₄
        ∧ (∀ b ∈ l₃,
            (lookupGroup b (groupByBatch batchType ms)).length <
              (lookupGroup bb (groupByBatch batchType ms)).length)
        ∧ (∀ b ∈ ((groupByBatch batchType ms).map Prod.fst).erase ba,
            (lookupGroup b (groupByBatch batchType ms)).length ≤
              (lookupGroup bb (groupByBatch batchType ms)).length)
        ∧ pair_by_batch batchType ms =
            (lookupGroup ba (groupByBatch batchType ms)).mapIdx
              (mkBatchPair ba bb
                (batchAvg (lookupGroup bb (groupByBatch batchType ms))))
        ∧ (pair_by_batch batchType ms).length =
            (lookupGroup ba (groupByBatch batchType ms)).length) := by
  constructor
  · intro hlt
    rw [pair_by_batch]
    simp only
    rw [if_pos (by simpa using hlt)]
  · intro h2
    have h2n : 2 ≤ ((groupByBatch batchType ms).map Prod.fst).length := by
      simpa using h2
    obtain ⟨ba, bb, h1, hm2, h01, h11⟩ :=
      pySortedDesc_top2 (fun b => (lookupGroup b (groupByBatch batchType ms)).length)
        ((groupByBatch batchType ms).map Prod.fst) h2n
    obtain ⟨l₁, l₂, heq1, hpre1, hall1⟩ :=
      firstMaxBy_spec _ _ ba h1
    obtain ⟨l₃, l₄, heq2, hpre2, hall2⟩ :=
      firstMaxBy_spec _ _ bb hm2
    have hrw : pair_by_batch batchType ms =
        (lookupGroup ba (groupByBatch batchType ms)).mapIdx
          (mkBatchPair ba bb
            (batchAvg (lookupGroup bb (groupByBatch batchType ms)))) := by
      rw [pair_by_batch]
      simp only
      rw [if_neg (by omega), h01, h11]
    refine ⟨ba, bb, l₁, l₂, l₃, l₄, heq1, hpre1, hall1, heq2, hpre2, hall2,
      hrw, ?_⟩
    rw [hrw, List.length_mapIdx]

/-- The 7-3-1 batch scenario: seven records in pmt batch "A", three in "B",
one in "C". -/
def mkBatchRec (batch : String) (v : ℚ) (i : ℕ) : PageMeasurement :=
  { serial := Option.some ("S" ++ toString i)
    fixture := Option.none
    piaBatch := Option.none
    pmtBatch := Option.some batch
    measurement := Option.some v
    createdAt := 0
    mid := i }

/-- Records of the 7-3-1 scenario (batch sizes 7, 3 and 1). -/
def exBatchMs : List PageMeasurement :=
  [mkBatchRec "A" 1 0, mkBatchRec "A" 2 1, mkBatchRec "A" 3 2,
   mkBatchRec "B" 10 3, mkBatchRec "A" 4 4, mkBatchRec "B" 11 5,
   mkBatchRec "A" 5 6, mkBatchRec "C" 100 7, mkBatchRec "A" 6 8,
   mkBatchRec "B" 12 9, mkBatchRec "A" 7 10]

/-! ## Ascending stable sort characterization (for fixture pairing) -/

lemma firstMinBy_eq_none {α β : Type} [LinearOrder β] (key : α → β) :
    ∀ l : List α, firstMinBy key l = Option.none ↔ l = []
  | [] => by simp [firstMinBy]
  | x :: xs => by
    rw [firstMinBy]
    cases h : firstMinBy key xs with
    | none => simp
    | some y =>
      by_cases hk : key y < key x <;> simp [hk]

/-- `firstMinBy` returns the earliest minimal element: everything strictly
before it has a strictly larger key, and it is minimal overall. -/
lemma firstMinBy_spec {α β : Type} [LinearOrder β] (key : α → β) :
    ∀ (l : List α) (m : α), firstMinBy key l = Option.some m →
      ∃ l₁ l₂, l = l₁ ++ m :: l₂
        ∧ (∀ x ∈ l₁, key m < key x)
        ∧ (∀ x ∈ l, key m ≤ key x)
  | [], m, h => by cases h
  | x :: xs, m, h => by
    rw [firstMinBy] at h
    cases hxs : firstMinBy key xs with
    | none =>
      rw [hxs] at h
      injection h with h
      subst h
      have hnil : xs = [] := (firstMinBy_eq_none key xs).mp hxs
      subst hnil
      exact ⟨[], [], rfl, by simp, by simp⟩
    | some y =>
      rw [hxs] at h
      have h₂ : (if key y < key x then Option.some y else Option.some x)
          = Option.some m := h
      obtain ⟨l₁, l₂, heq, hpre, hall⟩ := firstMinBy_spec key xs y hxs
      by_cases hk : key y < key x
      · rw [if_pos hk] at h₂
        injection h₂ with h₂
        subst h₂
        refine ⟨x :: l₁, l₂, by rw [heq]; rfl, ?_, ?_⟩
        · intro z hz
          rcases List.mem_cons.mp hz with hz | hz
          · subst hz; exact hk
          · exact hpre z hz
        · intro z hz
          rcases List.mem_cons.mp hz with hz | hz
          · subst hz; exact le_of_lt hk
          · exact hall z hz
      · rw [if_neg hk] at h₂
        injection h₂ with h₂
        subst h₂
        refine ⟨[], xs, rfl, by simp, ?_⟩
        intro z hz
        rcases List.mem_cons.mp hz with hz | hz
        · subst hz; exact le_rfl
        · exact le_trans (not_lt.mp hk) (hall z hz)

lemma firstMinBy_mem {α β : Type} [LinearOrder β] (key : α → β)
    (l : List α) (m : α) (h : firstMinBy key l = Option.some m) : m ∈ l := by
  obtain ⟨l₁, l₂, heq, -, -⟩ := firstMinBy_spec key l m h
  rw [heq]
  exact List.mem_append_right l₁ (List.mem_cons_self m l₂)

lemma firstMinBy_isSome {α β : Type} [LinearOrder β] (key : α → β)
    (l : List α) (hne : l ≠ []) : ∃ m, firstMinBy key l = Option.some m := by
  cases h : firstMinBy key l with
  | none => exact absurd ((firstMinBy_eq_none key l).mp h) hne
  | some m => exact ⟨m, rfl⟩

lemma pySortedAux_cons {α β : Type} [DecidableEq α] [LinearOrder β]
    (key : α → β) (n : ℕ) (l : List α) (m : α)
    (h : firstMinBy key l = Option.some m) :
    pySortedAux key (n + 1) l = m :: pySortedAux key n (l.erase m) := by
  cases l with
  | nil => cases h
  | cons a as =>
    rw [pySortedAux, h]
    simp

lemma pySortedAux_length {α β : Type} [DecidableEq α] [LinearOrder β]
    (key : α → β) :
    ∀ (n : ℕ) (l : List α), l.length = n → (pySortedAux key n l).length = n
  | 0, l, h => rfl
  | n + 1, l, h => by
    obtain ⟨m, hm⟩ := firstMinBy_isSome key l
      (by intro he; rw [he] at h; cases h)
    rw [pySortedAux_cons key n l m hm]
    have hmem : m ∈ l := firstMinBy_mem key l m hm
    have herase : (l.erase m).length = n := by
      rw [List.length_erase_of_mem hmem, h]
      omega
    rw [List.length_cons, pySortedAux_length key n (l.erase m) herase]

lemma pySorted_length {α β : Type} [DecidableEq α] [LinearOrder β]
    (key : α → β) (l : List α) : (pySorted key l).length = l.length :=
  pySortedAux_length key l.length l rfl

/-- The first two elements of Python's ascending stable sort are the
earliest minimal element and, after removing it, the earliest minimal
element of the remainder. -/
lemma pySorted_top2 {α β : Type} [DecidableEq α] [LinearOrder β]
    (key : α → β) (l : List α) (h2 : 2 ≤ l.length) :
    ∃ m1 m2, firstMinBy key l = Option.some m1
      ∧ firstMinBy key (l.erase m1) = Option.some m2
      ∧ (pySorted key l)[0]? = Option.some m1
      ∧ (pySorted key l)[1]? = Option.some m2 := by
  obtain ⟨m1, h1⟩ := firstMinBy_isSome key l
    (by intro he; rw [he] at h2; simp at h2)
  have hm1 : m1 ∈ l := firstMinBy_mem key l m1 h1
  have hlen : (l.erase m1).length = l.length - 1 :=
    List.length_erase_of_mem hm1
  obtain ⟨m2, hm2⟩ := firstMinBy_isSome key (l.erase m1)
    (by
      intro he
      rw [he] at hlen
      simp at hlen
      omega)
  obtain ⟨j, hj⟩ : ∃ j, l.length = j + 2 := ⟨l.length - 2, by omega⟩
  refine ⟨m1, m2, h1, hm2, ?_, ?_⟩
  · rw [pySorted, hj, pySortedAux_cons key (j + 1) l m1 h1]
    simp
  · rw [pySorted, hj, pySortedAux_cons key (j + 1) l m1 h1,
      pySortedAux_cons key j (l.erase m1) m2 hm2]
    simp

/-! ## Grouping helper facts -/

lemma addToGroup_keys {α : Type} (k : String) (v : α) :
    ∀ groups : List (String × List α),
      (addToGroup k v groups).map Prod.fst =
        if k ∈ groups.map Prod.fst then groups.map Prod.fst
        else groups.map Prod.fst ++ [k]
  | [] => by simp [addToGroup]
  | (k₂, vs) :: rest => by
    rw [addToGroup]
    by_cases hk : k₂ = k
    · subst hk
      simp
    · rw [if_neg hk, List.map_cons, List.map_cons,
        addToGroup_keys k v rest]
      by_cases hmem : k ∈ rest.map Prod.fst
      · rw [if_pos hmem, if_pos (List.mem_cons_of_mem _ hmem)]
      · have hnotin : k ∉ k₂ :: rest.map Prod.fst := by
          intro hc
          rcases List.mem_cons.mp hc with hc | hc
          · exact hk hc.symm
          · exact hmem hc
        rw [if_neg hmem, if_neg hnotin]
        rfl

lemma addToGroup_keys_nodup {α : Type} (k : String) (v : α)
    (groups : List (String × List α))
    (h : (groups.map Prod.fst).Nodup) :
    ((addToGroup k v groups).map Prod.fst).Nodup := by
  rw [addToGroup_keys]
  by_cases hmem : k ∈ groups.map Prod.fst
  · rwa [if_pos hmem]
  · rw [if_neg hmem]
    refine List.Nodup.append h (List.nodup_singleton k) ?_
    intro a ha hb
    rw [List.mem_singleton] at hb
    subst hb
    exact hmem ha

lemma foldAdd_keys_nodup {α : Type} :
    ∀ (ps : List (String × α)) (acc : List (String × List α)),
      (acc.map Prod.fst).Nodup →
      ((ps.foldl (fun a p => addToGroup p.1 p.2 a) acc).map Prod.fst).Nodup
  | [], _, h => h
  | p :: ps, acc, h =>
    foldAdd_keys_nodup ps (addToGroup p.1 p.2 acc)
      (addToGroup_keys_nodup p.1 p.2 acc h)

lemma fixturesDictOf_keys_nodup (fms : List (String × Measurement)) :
    ((fixturesDictOf fms).map Prod.fst).Nodup :=
  foldAdd_keys_nodup fms [] (by simp)

lemma addToGroup_buckets_ne_nil {α : Type} (k : String) (v : α) :
    ∀ groups : List (String × List α),
      (∀ g ∈ groups, g.2 ≠ []) →
      ∀ g ∈ addToGroup k v groups, g.2 ≠ []
  | [], h, g, hg => by
    rw [addToGroup] at hg
    rcases List.mem_singleton.mp hg with rfl
    simp
  | (k₂, vs) :: rest, h, g, hg => by
    rw [addToGroup] at hg
    by_cases hk : k₂ = k
    · rw [if_pos hk] at hg
      rcases List.mem_cons.mp hg with rfl | hg
      · simp
      · exact h g (List.mem_cons_of_mem _ hg)
    · rw [if_neg hk] at hg
      rcases List.mem_cons.mp hg with rfl | hg
      · exact h _ (List.mem_cons_self _ _)
      · exact addToGroup_buckets_ne_nil k v rest
          (fun g hg => h g (List.mem_cons_of_mem _ hg)) g hg

lemma foldAdd_buckets_ne_nil {α : Type} :
    ∀ (ps : List (String × α)) (acc : List (String × List α)),
      (∀ g ∈ acc, g.2 ≠ []) →
      ∀ g ∈ ps.foldl (fun a p => addToGroup p.1 p.2 a) acc, g.2 ≠ []
  | [], _, h => h
  | p :: ps, acc, h =>
    foldAdd_buckets_ne_nil ps (addToGroup p.1 p.2 acc)
      (addToGroup_buckets_ne_nil p.1 p.2 acc h)

lemma fixturesDictOf_buckets_ne_nil (fms : List (String × Measurement)) :
    ∀ g ∈ fixturesDictOf fms, g.2 ≠ [] :=
  foldAdd_buckets_ne_nil fms [] (by simp)

/-- Looking up a key that occurs in the association list yields the bucket
of its (first) entry. -/
lemma lookupGroup_mem {α : Type} (k : String)
    (groups : List (String × List α)) (h : k ∈ groups.map Prod.fst) :
    ∃ g ∈ groups, g.1 = k ∧ lookupGroup k groups = g.2 := by
  have hsome : (groups.find? (fun g => g.1 = k)).isSome := by
    rw [List.find?_isSome]
    obtain ⟨g, hg, hk⟩ := List.mem_map.mp h
    exact ⟨g, hg, by simp [hk]⟩
  cases hfind : groups.find? (fun g => g.1 = k) with
  | none => rw [hfind] at hsome; cases hsome
  | some g =>
    refine ⟨g, List.mem_of_find?_eq_some hfind, ?_, ?_⟩
    · have := List.find?_some hfind
      simpa using this
    · rw [lookupGroup, hfind]

lemma applyPairingStrategy_isSome (cfg : GraphConfig)
    (ms : List Measurement) (h : ms ≠ []) :
    ∃ m, applyPairingStrategy cfg ms = Option.some m := by
  obtain ⟨a, tl, rfl⟩ := List.exists_cons_of_ne_nil h
  rw [applyPairingStrategy, if_neg (by simp)]
  by_cases h1 : cfg.pairingStrategy = "first"
  · rw [if_pos h1]
    exact ⟨a, rfl⟩
  · rw [if_neg h1]
    have hlast : ∃ m, (a :: tl).getLast? = Option.some m :=
      ⟨(a :: tl).getLast (by simp), List.getLast?_eq_getLast _ _⟩
    by_cases h2 : cfg.pairingStrategy = "last"
    · rw [if_pos h2]
      exact hlast
    · rw [if_neg h2]
      by_cases h3 : cfg.pairingStrategy = "best"
      · rw [if_pos h3]
        cases hb : bestFold (a :: tl) with
        | none => exact hlast
        | some b => exact ⟨b.1, rfl⟩
      · rw [if_neg h3]
        exact hlast

/-- Part of the amended C6 about the generator: per device, the two fixtures
compared are chosen in ascending sorted order — the smallest fixture key and
the smallest of the remaining keys — with representatives picked by the
pairing strategy; fewer than two fixtures yield no pair. -/
lemma pairDevice_spec (cfg : GraphConfig) (fms : List (String × Measurement)) :
    ((fixturesDictOf fms).length < 2 → pairDevice cfg fms = Option.none)
    ∧ (2 ≤ (fixturesDictOf fms).length →
      ∃ f0 f1 xm ym,
        pairDevice cfg fms = Option.some (xm, ym)
        ∧ f0 ∈ (fixturesDictOf fms).map Prod.fst
        ∧ f1 ∈ (fixturesDictOf fms).map Prod.fst
        ∧ f0 < f1
        ∧ (∀ f ∈ (fixturesDictOf fms).map Prod.fst, f0 ≤ f)
        ∧ (∀ f ∈ ((fixturesDictOf fms).map Prod.fst).erase f0, f1 ≤ f)
        ∧ applyPairingStrategy cfg (lookupGroup f0 (fixturesDictOf fms))
            = Option.some xm
        ∧ applyPairingStrategy cfg (lookupGroup f1 (fixturesDictOf fms))
            = Option.some ym) := by
  constructor
  · intro hlt
    simp only [pairDevice]
    have hlen : ¬ 2 ≤
        (pySorted id ((fixturesDictOf fms).map Prod.fst)).length := by
      rw [pySorted_length, List.length_map]
      omega
    rw [if_neg hlen]
  · intro h2
    have h2k : 2 ≤ ((fixturesDictOf fms).map Prod.fst).length := by
      simpa using h2
    obtain ⟨f0, f1, hmin0, hmin1, hs0, hs1⟩ :=
      pySorted_top2 id ((fixturesDictOf fms).map Prod.fst) h2k
    have hf0 : f0 ∈ (fixturesDictOf fms).map Prod.fst :=
      firstMinBy_mem id _ f0 hmin0
    have hf1e : f1 ∈ ((fixturesDictOf fms).map Prod.fst).erase f0 :=
      firstMinBy_mem id _ f1 hmin1
    have hf1 : f1 ∈ (fixturesDictOf fms).map Prod.fst :=
      List.mem_of_mem_erase hf1e
    obtain ⟨-, -, -, -, hall0⟩ := firstMinBy_spec id _ f0 hmin0
    obtain ⟨-, -, -, -, hall1⟩ := firstMinBy_spec id _ f1 hmin1
    have hne : f1 ≠ f0 :=
      ((fixturesDictOf_keys_nodup fms).mem_erase_iff.mp hf1e).1
    have hlt01 : f0 < f1 :=
      lt_of_le_of_ne (hall0 f1 hf1) (fun he => hne he.symm)
    obtain ⟨g0, hg0mem, hg0k, hg0look⟩ :=
      lookupGroup_mem f0 (fixturesDictOf fms) hf0
    obtain ⟨g1, hg1mem, hg1k, hg1look⟩ :=
      lookupGroup_mem f1 (fixturesDictOf fms) hf1
    obtain ⟨xm, hxm⟩ := applyPairingStrategy_isSome cfg
      (lookupGroup f0 (fixturesDictOf fms))
      (by rw [hg0look]; exact fixturesDictOf_buckets_ne_nil fms g0 hg0mem)
    obtain ⟨ym, hym⟩ := applyPairingStrategy_isSome cfg
      (lookupGroup f1 (fixturesDictOf fms))
      (by rw [hg1look]; exact fixturesDictOf_buckets_ne_nil fms g1 hg1mem)
    refine ⟨f0, f1, xm, ym, ?_, hf0, hf1, hlt01, hall0, hall1, hxm, hym⟩
    simp only [pairDevice]
    rw [if_pos (show 2 ≤
          (pySorted id ((fixturesDictOf fms).map Prod.fst)).length by
        rw [pySorted_length, List.length_map]; exact h2),
      hs0, hs1]
    show (match applyPairingStrategy cfg (lookupGroup f0 (fixturesDictOf fms)),
        applyPairingStrategy cfg (lookupGroup f1 (fixturesDictOf fms)) with
      | Option.some a, Option.some b => Option.some (a, b)
      | _, _ => Option.none) = Option.some (xm, ym)
    rw [hxm, hym]

/-! ## Fixture pairing on the page (`graph_page._pair_by_test_fixture`) -/

/-- The qualification filter of `_pair_by_test_fixture`:
`serial and fixture and m.measurement is not None`. -/
def pageQualifies (m : PageMeasurement) : Bool :=
  truthy m.serial && truthy m.fixture && m.measurement.isSome

/-- The serial key of a qualifying record. -/
def serKey (m : PageMeasurement) : String := m.serial.getD ""

/-- The fixture key of a qualifying record. -/
def fixKey (m : PageMeasurement) : String := m.fixture.getD ""

/-- One step of the nested `defaultdict(dict)` update
`device_fixture_data[serial][fixture] = m`, guarded by
`if fixture not in device_fixture_data[serial]` (the first record wins). -/
def addDeviceFixture (s f : String) (m : PageMeasurement) :
    List (String × List (String × PageMeasurement)) →
      List (String × List (String × PageMeasurement))
  | [] => [(s, [(f, m)])]
  | (k, inner) :: rest =>
      if k = s then
        (k, if f ∈ inner.map Prod.fst then inner else inner ++ [(f, m)])
          :: rest
      else (k, inner) :: addDeviceFixture s f m rest

/-- The grouping loop of `_pair_by_test_fixture`. -/
def deviceFixtureData (ms : List PageMeasurement) :
    List (String × List (String × PageMeasurement)) :=
  ms.foldl (fun acc m =>
    if pageQualifies m then
      addDeviceFixture (serKey m) (fixKey m) m acc
    else acc) []

/-- One output entry of `_pair_by_test_fixture`. -/
structure PairedF where
  deviceId : String
  ourValue : ℚ
  mfrValue : ℚ
  ourMeasurement : PageMeasurement
  otherMeasurement : PageMeasurement
  fixtureA : String
  fixtureB : String
deriving DecidableEq, Repr

/-- The pair built from a device's first two fixture entries; `none` when
the device has fewer than two fixtures. -/
def mkFixturePair (d : String) (inner : List (String × PageMeasurement)) :
    Option PairedF :=
  match inner[0]?, inner[1]? with
  | Option.some (fa, ma), Option.some (fb, mb) =>
      Option.some
        { deviceId := d
          ourValue := pmval ma
          mfrValue := pmval mb
          ourMeasurement := ma
          otherMeasurement := mb
          fixtureA := fa
          fixtureB := fb }
  | _, _ => Option.none

/-- Embedding of `graph_page._pair_by_test_fixture`. -/
def pair_by_test_fixture (ms : List PageMeasurement) : List PairedF :=
  (deviceFixtureData ms).filterMap (fun g => mkFixturePair g.1 g.2)

/-- First-occurrence deduplication: the order in which a Python dict
enumerates its keys. -/
def firstDedup : List String → List String
  | [] => []
  | x :: xs => x :: firstDedup (xs.filter (fun y => y != x))
termination_by l => l.length
decreasing_by
  simp_wf
  exact Nat.lt_succ_of_le (List.length_filter_le _ _)

/-- The inner fixture dict as the amended claim words it: the device's
fixtures in first-encountered order, each mapped to the first qualifying
record with that fixture. -/
def specInner (rs : List PageMeasurement) : List (String × PageMeasurement) :=
  (firstDedup (rs.map fixKey)).filterMap (fun f =>
    (rs.find? (fun m => fixKey m == f)).map (fun m => (f, m)))

/-- The nested device→fixture dict as the amended claim words it: devices in
first-encountered order, each with its `specInner` fixture dict over the
device's qualifying records. -/
def specDeviceFixtureData (ms : List PageMeasurement) :
    List (String × List (String × PageMeasurement)) :=
  (firstDedup ((ms.filter pageQualifies).map serKey)).map (fun d =>
    (d, specInner ((ms.filter pageQualifies).filter
      (fun m => serKey m == d))))

/-- Fixture pairing as the amended claim words it: per device (in
first-encountered order) the first two distinct fixtures in
first-encountered order, represented by the first qualifying record of each
fixture; devices with fewer than two fixtures are skipped. -/
def spec_pair_by_test_fixture (ms : List PageMeasurement) : List PairedF :=
  (specDeviceFixtureData ms).filterMap (fun g => mkFixturePair g.1 g.2)

lemma mem_firstDedup (x : String) :
    ∀ l : List String, x ∈ firstDedup l ↔ x ∈ l
  | [] => by simp [firstDedup]
  | y :: ys => by
    rw [firstDedup, List.mem_cons, List.mem_cons,
      mem_firstDedup x (ys.filter (fun z => z != y))]
    by_cases hxy : x = y
    · simp [hxy]
    · simp [hxy]
termination_by l => l.length
decreasing_by
  simp_wf
  exact Nat.lt_succ_of_le (List.length_filter_le _ _)

lemma firstDedup_nodup : ∀ l : List String, (firstDedup l).Nodup
  | [] => by simp [firstDedup]
  | y :: ys => by
    rw [firstDedup]
    refine List.nodup_cons.mpr ⟨?_, firstDedup_nodup (ys.filter (fun z => z != y))⟩
    intro hy
    have := (mem_firstDedup y _).mp hy
    simp at this
termination_by l => l.length
decreasing_by
  simp_wf
  exact Nat.lt_succ_of_le (List.length_filter_le _ _)

lemma firstDedup_append (x : String) :
    ∀ l : List String, firstDedup (l ++ [x]) =
      if x ∈ l then firstDedup l else firstDedup l ++ [x]
  | [] => by simp [firstDedup]
  | y :: ys => by
    rw [List.cons_append, firstDedup, firstDedup]
    by_cases hxy : x = y
    · subst hxy
      rw [List.filter_append]
      have : List.filter (fun z => z != x) [x] = [] := by simp
      rw [this, List.append_nil, if_pos (List.mem_cons_self x ys)]
    · rw [List.filter_append]
      have : List.filter (fun z => z != y) [x] = [x] := by simp [hxy]
      rw [this, firstDedup_append x (ys.filter (fun z => z != y))]
      by_cases hmem : x ∈ ys
      · rw [if_pos (by simp [hmem, hxy]), if_pos (by simp [List.mem_cons, hmem])]
      · rw [if_neg (by simp [hmem, hxy]),
          if_neg (by simp [List.mem_cons, hmem, hxy]), List.cons_append]
termination_by l => l.length
decreasing_by
  simp_wf
  exact Nat.lt_succ_of_le (List.length_filter_le _ _)

lemma find?_fixKey_isSome (f : String) (rs : List PageMeasurement)
    (h : f ∈ rs.map fixKey) :
    ∃ r, rs.find? (fun m => fixKey m == f) = Option.some r := by
  have hsome : (rs.find? (fun m => fixKey m == f)).isSome := by
    rw [List.find?_isSome]
    obtain ⟨r, hr, hk⟩ := List.mem_map.mp h
    exact ⟨r, hr, by simp [hk]⟩
  cases hfind : rs.find? (fun m => fixKey m == f) with
  | none => rw [hfind] at hsome; cases hsome
  | some r => exact ⟨r, rfl⟩

lemma find?_fixKey_eq_none (f : String) (rs : List PageMeasurement)
    (h : f ∉ rs.map fixKey) :
    rs.find? (fun m => fixKey m == f) = Option.none := by
  rw [List.find?_eq_none]
  intro r hr
  simp only [beq_iff_eq]
  intro he
  exact h (List.mem_map.mpr ⟨r, hr, he⟩)

lemma filterMapCongr {α γ : Type} {f g : α → Option γ} :
    ∀ l : List α, (∀ x ∈ l, f x = g x) → l.filterMap f = l.filterMap g
  | [], _ => rfl
  | x :: xs, h => by
    rw [List.filterMap_cons, List.filterMap_cons, h x (List.mem_cons_self x xs),
      filterMapCongr xs (fun z hz => h z (List.mem_cons_of_mem _ hz))]

lemma filterMap_keyed {α γ : Type} (g : α → Option (α × γ)) :
    ∀ l : List α, (∀ x ∈ l, ∃ y, g x = Option.some (x, y)) →
      (l.filterMap g).map Prod.fst = l
  | [], _ => rfl
  | x :: xs, h => by
    obtain ⟨y, hy⟩ := h x (List.mem_cons_self x xs)
    rw [List.filterMap_cons, hy, List.map_cons,
      filterMap_keyed g xs (fun z hz => h z (List.mem_cons_of_mem _ hz))]

/-- The keys of `specInner rs` are exactly the first-dedup of the fixture
keys. -/
lemma specInner_keys (rs : List PageMeasurement) :
    (specInner rs).map Prod.fst = firstDedup (rs.map fixKey) := by
  rw [specInner]
  apply filterMap_keyed
  intro f hf
  obtain ⟨r, hr⟩ := find?_fixKey_isSome f rs ((mem_firstDedup f _).mp hf)
  exact ⟨r, by rw [hr]; rfl⟩

lemma specInner_singleton (m : PageMeasurement) :
    specInner [m] = [(fixKey m, m)] := by
  rw [specInner]
  have h1 : ([m].map fixKey) = [fixKey m] := rfl
  rw [h1, firstDedup]
  have h2 : List.filter (fun z => z != fixKey m) ([] : List String) = [] := rfl
  rw [h2, firstDedup]
  have h3 : List.find? (fun r => fixKey r == fixKey m) [m] = Option.some m := by
    simp [List.find?]
  rw [List.filterMap_cons, h3]
  rfl

/-- Appending one record to a device's row list either leaves its spec inner
dict unchanged (fixture already present) or appends the new fixture entry. -/
lemma specInner_append (rs : List PageMeasurement) (m : PageMeasurement) :
    specInner (rs ++ [m]) =
      if fixKey m ∈ rs.map fixKey then specInner rs
      else specInner rs ++ [(fixKey m, m)] := by
  rw [specInner, List.map_append]
  have hm1 : ([m].map fixKey) = [fixKey m] := rfl
  rw [hm1, firstDedup_append]
  by_cases hmem : fixKey m ∈ rs.map fixKey
  · rw [if_pos hmem, if_pos hmem, specInner]
    apply filterMapCongr
    intro f hf
    obtain ⟨r, hr⟩ := find?_fixKey_isSome f rs ((mem_firstDedup f _).mp hf)
    rw [List.find?_append, hr]
    rfl
  · rw [if_neg hmem, if_neg hmem, List.filterMap_append, specInner]
    have hpart1 : (firstDedup (rs.map fixKey)).filterMap (fun f =>
        ((rs ++ [m]).find? (fun r => fixKey r == f)).map (fun r => (f, r)))
        = (firstDedup (rs.map fixKey)).filterMap (fun f =>
        (rs.find? (fun r => fixKey r == f)).map (fun r => (f, r))) := by
      apply filterMapCongr
      intro f hf
      obtain ⟨r, hr⟩ := find?_fixKey_isSome f rs ((mem_firstDedup f _).mp hf)
      rw [List.find?_append, hr]
      rfl
    rw [hpart1]
    congr 1
    have hnone : rs.find? (fun r => fixKey r == fixKey m) = Option.none :=
      find?_fixKey_eq_none (fixKey m) rs hmem
    have hone : List.find? (fun r => fixKey r == fixKey m) [m]
        = Option.some m := by
      simp [List.find?]
    rw [List.filterMap_cons, List.find?_append, hnone, hone]
    rfl

lemma addDeviceFixture_notMem (s f : String) (m : PageMeasurement) :
    ∀ acc : List (String × List (String × PageMeasurement)),
      s ∉ acc.map Prod.fst →
      addDeviceFixture s f m acc = acc ++ [(s, [(f, m)])]
  | [], _ => rfl
  | (k, inner) :: rest, h => by
    have hk : k ≠ s := by
      intro he
      exact h (by simp [he])
    rw [addDeviceFixture, if_neg hk,
      addDeviceFixture_notMem s f m rest (fun hc => h (by simp [hc]))]
    rfl

/-- Updating a map-shaped nested dict at an existing device key rewrites
only that device's inner dict. -/
lemma addDeviceFixture_map (s f : String) (m : PageMeasurement) :
    ∀ (ds : List String) (g : String → List (String × PageMeasurement)),
      ds.Nodup → s ∈ ds →
      addDeviceFixture s f m (ds.map (fun d => (d, g d))) =
        ds.map (fun d => (d,
          if d = s then
            (if f ∈ (g d).map Prod.fst then g d else g d ++ [(f, m)])
          else g d))
  | [], g, _, hs => absurd hs (by simp)
  | d :: ds, g, hnd, hs => by
    rw [List.map_cons, addDeviceFixture]
    by_cases hds : d = s
    · rw [if_pos hds, List.map_cons, if_pos hds]
      congr 1
      apply List.map_congr_left
      intro d₂ hd₂
      have hne : d₂ ≠ s := by
        intro he
        rw [← hds] at he
        exact (List.nodup_cons.mp hnd).1 (he ▸ hd₂)
      rw [if_neg hne]
    · rw [if_neg hds, List.map_cons, if_neg hds,
        addDeviceFixture_map s f m ds g (List.nodup_cons.mp hnd).2
          (by rcases List.mem_cons.mp hs with he | hm
              · exact absurd he.symm hds
              · exact hm)]

lemma specDeviceFixtureData_keys (ms : List PageMeasurement) :
    (specDeviceFixtureData ms).map Prod.fst =
      firstDedup ((ms.filter pageQualifies).map serKey) := by
  rw [specDeviceFixtureData, List.map_map]
  exact List.map_id _

/-- The nested grouping of `_pair_by_test_fixture` equals its spec-side
description: devices in first-encountered order, fixtures in
first-encountered order, first qualifying record per fixture. -/
lemma deviceFixtureData_spec (ms : List PageMeasurement) :
    deviceFixtureData ms = specDeviceFixtureData ms := by
  induction ms using List.reverseRecOn with
  | nil => simp [deviceFixtureData, specDeviceFixtureData, firstDedup]
  | append_singleton ms m ih =>
    have hL : deviceFixtureData (ms ++ [m]) =
        (if pageQualifies m then
          addDeviceFixture (serKey m) (fixKey m) m (deviceFixtureData ms)
        else deviceFixtureData ms) := by
      rw [deviceFixtureData, List.foldl_append]
      rfl
    have hfilter : (ms ++ [m]).filter pageQualifies =
        ms.filter pageQualifies ++
          (if pageQualifies m then [m] else []) := by
      rw [List.filter_append]
      congr 1
      by_cases hq : pageQualifies m <;> simp [hq]
    by_cases hq : pageQualifies m
    · rw [hL, if_pos hq, ih]
      rw [if_pos hq] at hfilter
      by_cases hs : serKey m ∈ (ms.filter pageQualifies).map serKey
      · -- existing device: only its inner dict changes
        have hsdedup : serKey m ∈
            firstDedup ((ms.filter pageQualifies).map serKey) :=
          (mem_firstDedup _ _).mpr hs
        rw [specDeviceFixtureData,
          addDeviceFixture_map (serKey m) (fixKey m) m
            (firstDedup ((ms.filter pageQualifies).map serKey))
            (fun d => specInner ((ms.filter pageQualifies).filter
              (fun r => serKey r == d)))
            (firstDedup_nodup _) hsdedup]
        rw [specDeviceFixtureData, hfilter, List.map_append]
        have hms : ([m].map serKey) = [serKey m] := rfl
        rw [hms, firstDedup_append, if_pos hs]
        apply List.map_congr_left
        intro d hd
        by_cases hds : d = serKey m
        · rw [if_pos hds]
          have hbeq : (serKey m == d) = true := by
            rw [beq_iff_eq]
            exact hds.symm
          have hQf : ((ms.filter pageQualifies) ++ [m]).filter
              (fun r => serKey r == d) =
              (ms.filter pageQualifies).filter (fun r => serKey r == d)
                ++ [m] := by
            rw [List.filter_append]
            congr 1
            simp [List.filter_cons, hbeq]
          rw [hQf, specInner_append]
          have hkeys : (fixKey m ∈ (specInner
              ((ms.filter pageQualifies).filter
                (fun r => serKey r == d))).map Prod.fst) ↔
              fixKey m ∈ ((ms.filter pageQualifies).filter
                (fun r => serKey r == d)).map fixKey := by
            rw [specInner_keys]
            exact mem_firstDedup _ _
          by_cases hf : fixKey m ∈ ((ms.filter pageQualifies).filter
              (fun r => serKey r == d)).map fixKey
          · rw [if_pos (hkeys.mpr hf), if_pos hf]
          · rw [if_neg (fun hc => hf (hkeys.mp hc)), if_neg hf]
        · rw [if_neg hds]
          have hbne : (serKey m == d) = false := by
            rw [beq_eq_false_iff_ne]
            exact fun hc => hds hc.symm
          have hQf : ((ms.filter pageQualifies) ++ [m]).filter
              (fun r => serKey r == d) =
              (ms.filter pageQualifies).filter
                (fun r => serKey r == d) := by
            rw [List.filter_append]
            have hnil : List.filter (fun r => serKey r == d) [m] = [] := by
              simp [List.filter_cons, hbne]
            rw [hnil, List.append_nil]
          rw [hQf]
      · -- new device: appended at the end, other devices unchanged
        have hsded : serKey m ∉
            firstDedup ((ms.filter pageQualifies).map serKey) := by
          intro hc
          exact hs ((mem_firstDedup _ _).mp hc)
        rw [addDeviceFixture_notMem (serKey m) (fixKey m) m _
          (by rw [specDeviceFixtureData_keys]; exact hsded)]
        have hms : ([m].map serKey) = [serKey m] := rfl
        conv_rhs => rw [specDeviceFixtureData, hfilter, List.map_append,
          hms, firstDedup_append, if_neg hs, List.map_append]
        congr 1
        · rw [specDeviceFixtureData]
          apply List.map_congr_left
          intro d hd
          have hdmem : d ∈ (ms.filter pageQualifies).map serKey :=
            (mem_firstDedup _ _).mp hd
          have hds : ¬ serKey m = d := fun he => hs (he ▸ hdmem)
          have hbne : (serKey m == d) = false := by
            rw [beq_eq_false_iff_ne]
            exact hds
          have hQf : ((ms.filter pageQualifies) ++ [m]).filter
              (fun r => serKey r == d) =
              (ms.filter pageQualifies).filter
                (fun r => serKey r == d) := by
            rw [List.filter_append]
            have hnil : List.filter (fun r => serKey r == d) [m] = [] := by
              simp [List.filter_cons, hbne]
            rw [hnil, List.append_nil]
          rw [hQf]
        · have hQs : (ms.filter pageQualifies).filter
              (fun r => serKey r == serKey m) = [] := by
            rw [List.filter_eq_nil_iff]
            intro r hr hc
            rw [beq_iff_eq] at hc
            exact hs (List.mem_map.mpr ⟨r, hr, hc⟩)
          have hQf : ((ms.filter pageQualifies) ++ [m]).filter
              (fun r => serKey r == serKey m) = [m] := by
            rw [List.filter_append, hQs, List.nil_append]
            simp
          rw [List.map_singleton, hQf, specInner_singleton]
    · rw [hL, if_neg hq, ih]
      rw [if_neg hq, List.append_nil] at hfilter
      rw [specDeviceFixtureData, specDeviceFixtureData, hfilter]

/-- `_pair_by_test_fixture` equals its spec-side description. -/
lemma pair_by_test_fixture_spec (ms : List PageMeasurement) :
    pair_by_test_fixture ms = spec_pair_by_test_fixture ms := by
  rw [pair_by_test_fixture, spec_pair_by_test_fixture,
    deviceFixtureData_spec]

/-- C6 (amended): fixture pairing groups records by device id and then by
fixture.  In the generator's same-measurement extraction the two fixtures
compared per device are the two smallest fixture names in ascending sorted
order (not first-encountered input order), each represented by the record
the configured device-pairing strategy selects from its bucket, and devices
with fewer than two distinct fixtures are skipped.  The page-level
`_pair_by_test_fixture` instead iterates devices and fixtures in
first-encountered order and always keeps the first qualifying record per
(device, fixture), ignoring the pairing strategy. -/
theorem fixture_pairing (cfg : GraphConfig) (ms : List Measurement)
    (fms : List (String × Measurement)) (pms : List PageMeasurement) :
    ((extract_comparison_same cfg ms).2.2.2.2 =
      (groupByDevice cfg ms).filterMap (fun g => pairDevice cfg g.2))
    ∧ ((fixturesDictOf fms).length < 2 → pairDevice cfg fms = Option.none)
    ∧ (2 ≤ (fixturesDictOf fms).length →
      ∃ f0 f1 xm ym,
        pairDevice cfg fms = Option.some (xm, ym)
        ∧ f0 ∈ (fixturesDictOf fms).map Prod.fst
        ∧ f1 ∈ (fixturesDictOf fms).map Prod.fst
        ∧ f0 < f1
        ∧ (∀ f ∈ (fixturesDictOf fms).map Prod.fst, f0 ≤ f)
        ∧ (∀ f ∈ ((fixturesDictOf fms).map Prod.fst).erase f0, f1 ≤ f)
        ∧ applyPairingStrategy cfg (lookupGroup f0 (fixturesDictOf fms))
            = Option.some xm
        ∧ applyPairingStrategy cfg (lookupGroup f1 (fixturesDictOf fms))
            = Option.some ym)
    ∧ pair_by_test_fixture pms = spec_pair_by_test_fixture pms :=
  ⟨rfl, (pairDevice_spec cfg fms).1, (pairDevice_spec cfg fms).2,
   pair_by_test_fixture_spec pms⟩

/-- The fixture selection as the original claim words it: the first two
distinct fixtures in first-encountered input order (no sorting), with
strategy-chosen representatives. -/
def claimPairDevice (cfg : GraphConfig)
    (fms : List (String × Measurement)) :
    Option (Measurement × Measurement) :=
  let fixturesDict := fixturesDictOf fms
  let fixtures := fixturesDict.map Prod.fst
  if 2 ≤ fixtures.length then
    match fixtures[0]?, fixtures[1]? with
    | Option.some xf, Option.some yf =>
      match applyPairingStrategy cfg (lookupGroup xf fixturesDict),
            applyPairingStrategy cfg (lookupGroup yf fixturesDict) with
      | Option.some xm, Option.some ym => Option.some (xm, ym)
      | _, _ => Option.none
    | _, _ => Option.none
  else Option.none

/-- A record of device "D" on fixture "B" (encountered first). -/
def mFixB : Measurement :=
  { name := "V"
    measurement := Option.some 1
    nominal := Option.none
    hasPlot := false
    plotNonempty := false
    pia := Option.some "D"
    pmt := Option.none
    fixture := "B"
    xFieldValue := 0
    groupValue := Option.none
    testId := "t1" }

/-- A record of device "D" on fixture "A" (encountered second). -/
def mFixA : Measurement :=
  { name := "V"
    measurement := Option.some 2
    nominal := Option.none
    hasPlot := false
    plotNonempty := false
    pia := Option.some "D"
    pmt := Option.none
    fixture := "A"
    xFieldValue := 0
    groupValue := Option.none
    testId := "t2" }

/-- One device's `(fixture, record)` pairs with fixture "B" encountered
before fixture "A". -/
def exFixPairs : List (String × Measurement) :=
  [("B", mFixB), ("A", mFixA)]

lemma strAB : ("A" : String) < "B" := by
  rw [String.lt_iff_toList_lt]
  decide

/-- C6 counterexample: with fixtures encountered in the order "B", "A", the
generator pairs the sorted-first fixture "A" as x against "B" as y — not
the first-encountered fixture "B" against "A" as the claim states. -/
theorem fixture_order_counterexample :
    pairDevice cfgSame exFixPairs = Option.some (mFixA, mFixB)
    ∧ claimPairDevice cfgSame exFixPairs = Option.some (mFixB, mFixA)
    ∧ pairDevice cfgSame exFixPairs ≠ claimPairDevice cfgSame exFixPairs := by
  have hminBA : firstMinBy (id : String → String) ["B", "A"]
      = Option.some "A" := by
    simp only [firstMinBy, id_eq]
    rw [if_pos strAB]
  have hBe : (["B", "A"] : List String).erase "A" = ["B"] := by decide
  have hminB : firstMinBy (id : String → String) ["B"]
      = Option.some "B" := by decide
  have hsort : pySorted (id : String → String) ["B", "A"] = ["A", "B"] := by
    rw [pySorted]
    show pySortedAux id 2 ["B", "A"] = ["A", "B"]
    rw [pySortedAux_cons id 1 ["B", "A"] "A" hminBA, hBe,
      pySortedAux_cons id 0 ["B"] "B" hminB]
    decide
  have hkeys : (fixturesDictOf exFixPairs).map Prod.fst = ["B", "A"] := by
    decide
  have hpd : pairDevice cfgSame exFixPairs = Option.some (mFixA, mFixB) := by
    simp only [pairDevice]
    rw [hkeys, hsort]
    decide
  have hcd : claimPairDevice cfgSame exFixPairs
      = Option.some (mFixB, mFixA) := by decide
  refine ⟨hpd, hcd, ?_⟩
  rw [hpd, hcd]
  decide

/-- A page-level record for the fixture-pairing witness. -/
def mkPageRec (s f : String) (v : ℚ) (i : ℕ) : PageMeasurement :=
  { serial := Option.some s
    fixture := Option.some f
    piaBatch := Option.none
    pmtBatch := Option.none
    measurement := Option.some v
    createdAt := 0
    mid := i }

/-- Page records: device "D1" seen on fixture "FB" (twice) and "FA";
device "D2" on a single fixture. -/
def exPageMs : List PageMeasurement :=
  [mkPageRec "D1" "FB" 1 0, mkPageRec "D1" "FA" 2 1,
   mkPageRec "D1" "FB" 3 2, mkPageRec "D2" "FA" 4 3]

/-- Witness for the amended C6 at concrete inputs; the page-level pairing
keeps the first record of fixture "FB" (value 1, not the later value 3) and
uses fixtures in first-encountered order, while the device with one fixture
is skipped. -/
theorem fixture_pairing_witness :
    2 ≤ (fixturesDictOf exFixPairs).length
    ∧ (((extract_comparison_same cfgSame [mFixB, mFixA]).2.2.2.2 =
        (groupByDevice cfgSame [mFixB, mFixA]).filterMap
          (fun g => pairDevice cfgSame g.2))
      ∧ ((fixturesDictOf exFixPairs).length < 2 →
          pairDevice cfgSame exFixPairs = Option.none)
      ∧ (2 ≤ (fixturesDictOf exFixPairs).length →
        ∃ f0 f1 xm ym,
          pairDevice cfgSame exFixPairs = Option.some (xm, ym)
          ∧ f0 ∈ (fixturesDictOf exFixPairs).map Prod.fst
          ∧ f1 ∈ (fixturesDictOf exFixPairs).map Prod.fst
          ∧ f0 < f1
          ∧ (∀ f ∈ (fixturesDictOf exFixPairs).map Prod.fst, f0 ≤ f)
          ∧ (∀ f ∈ ((fixturesDictOf exFixPairs).map Prod.fst).erase f0,
              f1 ≤ f)
          ∧ applyPairingStrategy cfgSame
              (lookupGroup f0 (fixturesDictOf exFixPairs)) = Option.some xm
          ∧ applyPairingStrategy cfgSame
              (lookupGroup f1 (fixturesDictOf exFixPairs)) = Option.some ym)
      ∧ pair_by_test_fixture exPageMs = spec_pair_by_test_fixture exPageMs)
    ∧ pair_by_test_fixture exPageMs =
      [{ deviceId := "D1"
         ourValue := 1
         mfrValue := 2
         ourMeasurement := mkPageRec "D1" "FB" 1 0
         otherMeasurement := mkPageRec "D1" "FA" 2 1
         fixtureA := "FB"
         fixtureB := "FA" }] :=
  ⟨by decide, fixture_pairing cfgSame [mFixB, mFixA] exFixPairs exPageMs,
   by decide⟩

/-- Witness for C7: the 7-3-1 scenario satisfies the ≥2-batches hypothesis,
produces 7 paired points, and every point compares batch "A" against batch
"B" (the size-1 batch "C" is ignored). -/
theorem batch_pairing_witness :
    2 ≤ (groupByBatch "pmt" exBatchMs).length
    ∧ ((groupByBatch "pmt" exBatchMs).length < 2 →
        pair_by_batch "pmt" exBatchMs = [])
    ∧ (pair_by_batch "pmt" exBatchMs).length = 7
    ∧ (pair_by_batch "pmt" exBatchMs).map PairedB.batchA =
        List.replicate 7 "A"
    ∧ (pair_by_batch "pmt" exBatchMs).map PairedB.batchB =
        List.replicate 7 "B" :=
  ⟨by decide, (batch_pairing "pmt" exBatchMs).1, by decide, by decide,
   by decide⟩

end PCBA
